import Mathlib

/-!
Verification of the Connect Four backend: a shallow embedding of
`GameEngine.js`, `BotEngine.js` and `MatchmakingService.js` (plus the
validation pipeline of the socket handler `onMakeMove`), together with
theorems settling the specification claims about them.

Conventions of the embedding:
* JavaScript numbers used as board coordinates are `Int`; cell marks,
  counters and timestamps are `Nat`.
* An out-of-bounds JavaScript array read yields `undefined`; reads of the
  board are modelled as `Option Nat` with `none` for `undefined`.
* The two `while` loops of `countConsecutive` advance a coordinate by a
  non-zero direction each step, so on the 6 x 7 grid they run at most 7
  iterations; they are embedded with fuel 8, which is never exhausted.
* The JavaScript `Map`s of the matchmaking service (insertion-ordered,
  unique keys) are association lists; `setTimeout` handles are explicit
  numeric ids supplied by the caller, and `clearTimeout` is recorded in a
  `cancelled` log so that cancellation is observable.
* Fields irrelevant to every claim (the raw socket object, `createdAt`,
  the `botEngine` back-reference, console logging, and the transport /
  Kafka / database side effects) are omitted.
-/

set_option maxHeartbeats 1000000

namespace Connect4

/-- Number of board rows (`this.ROWS`). -/
def ROWS : Nat := 6

/-- Number of board columns (`this.COLS`). -/
def COLS : Nat := 7

/-- Mark of an empty cell (`this.EMPTY`). -/
def EMPTY : Nat := 0

/-- Mark of the first player (`this.PLAYER1`). -/
def PLAYER1 : Nat := 1

/-- Mark of the second player (`this.PLAYER2`). -/
def PLAYER2 : Nat := 2

/-- Row-major board grid, `board[row][col]`. -/
abbrev Board := List (List Nat)

/-- Reading `board[r][c]`: `none` models the `undefined` produced by an
out-of-bounds JavaScript array read (all engine reads are bounds-guarded). -/
def cellAt (b : Board) (r c : Int) : Option Nat :=
  if 0 ≤ r ∧ r < (ROWS : Int) ∧ 0 ≤ c ∧ c < (COLS : Int) then
    some ((b.getD r.toNat []).getD c.toNat EMPTY)
  else none

/-- Writing `board[r][c] = v` (every engine write is in bounds, where
`List.set` updates the cell). -/
def setCell (b : Board) (r c : Int) (v : Nat) : Board :=
  b.set r.toNat ((b.getD r.toNat []).set c.toNat v)

/-- Well-formed board: the 6 x 7 shape every live engine board has. -/
def WF (b : Board) : Prop :=
  b.length = ROWS ∧ ∀ row ∈ b, row.length = COLS

instance (b : Board) : Decidable (WF b) := by
  unfold WF; infer_instance

/-- The empty 6 x 7 board built by `initializeBoard`. -/
def initializeBoard : Board :=
  List.replicate ROWS (List.replicate COLS EMPTY)

/-- Full mutable state of a `GameEngine` instance. -/
structure Engine where
  board : Board
  currentPlayer : Nat
  moveHistory : List (Int × Int × Nat)
  gameOver : Bool
  winner : Option Nat
  isDraw : Bool
deriving DecidableEq

/-- Engine state right after `new GameEngine()`. -/
def initEngine : Engine :=
  { board := initializeBoard
    currentPlayer := PLAYER1
    moveHistory := []
    gameOver := false
    winner := none
    isDraw := false }

/-- The `for (let r = ROWS - 1; r >= 0; r--)` search for the lowest empty
cell of a column, shared by `dropPiece` and `evaluateMove`; the fuel is the
number of rows still to inspect, starting at `ROWS`. -/
def findRowAux (b : Board) (col : Int) : Nat → Int
  | 0 => -1
  | r + 1 =>
    if cellAt b (r : Int) col = some EMPTY then (r : Int) else findRowAux b col r

/-- Lowest empty row of a column, `-1` when the scan finds none. -/
def findRow (b : Board) (col : Int) : Int :=
  findRowAux b col ROWS

/-- One `while` loop of `countConsecutive`: starting at `(r, c)`, count
consecutive in-bounds cells holding `p`, stepping by `(dr, dc)`. -/
def countDir (b : Board) (p : Nat) (dr dc : Int) : Int → Int → Nat → Nat
  | _, _, 0 => 0
  | r, c, fuel + 1 =>
    if cellAt b r c = some p then 1 + countDir b p dr dc (r + dr) (c + dc) fuel
    else 0

/-- The `countConsecutive(row, col, dr, dc, player)` method: the placed cell
plus the runs in the positive and negative directions. -/
def countConsecutive (b : Board) (row col dr dc : Int) (p : Nat) : Nat :=
  1 + countDir b p dr dc (row + dr) (col + dc) 8
    + countDir b p (-dr) (-dc) (row - dr) (col - dc) 8

/-- The `checkWin(row, col, player)` method: any of the four axes reaches a
run of at least 4. -/
def checkWin (b : Board) (row col : Int) (p : Nat) : Bool :=
  decide (4 ≤ countConsecutive b row col 0 1 p) ||
  decide (4 ≤ countConsecutive b row col 1 0 p) ||
  decide (4 ≤ countConsecutive b row col 1 1 p) ||
  decide (4 ≤ countConsecutive b row col 1 (-1) p)

/-- The `isBoardFull()` method: every column's top cell is occupied. -/
def isBoardFull (b : Board) : Bool :=
  (List.range COLS).all fun c => decide (¬ cellAt b 0 (c : Int) = some EMPTY)

/-- The `getValidMoves()` method: columns whose top cell is empty, in
ascending order. -/
def getValidMoves (b : Board) : List Nat :=
  (List.range COLS).filter fun c => decide (cellAt b 0 (c : Int) = some EMPTY)

/-- Result object of `dropPiece`: either `{ success: false, error }` or
`{ success: true, row, gameOver, winner?, isDraw? }`. -/
inductive DropResult where
  | err (msg : String)
  | ok (row : Int) (gameOver : Bool) (winner : Option Nat) (isDraw : Bool)
deriving DecidableEq

/-- The `dropPiece(col)` method, returning the mutated engine together with
its result object. -/
def dropPiece (e : Engine) (col : Int) : Engine × DropResult :=
  if col < 0 ∨ (COLS : Int) ≤ col then
    (e, .err ("Invalid column"))
  else if ¬ cellAt e.board 0 col = some EMPTY then
    (e, .err ("Column is full"))
  else
    let row := findRow e.board col
    let b1 := setCell e.board row col e.currentPlayer
    let hist := e.moveHistory ++ [(row, col, e.currentPlayer)]
    if checkWin b1 row col e.currentPlayer then
      ({ e with board := b1, moveHistory := hist,
                gameOver := true, winner := some e.currentPlayer },
        .ok row true (some e.currentPlayer) false)
    else if isBoardFull b1 then
      ({ e with board := b1, moveHistory := hist,
                gameOver := true, isDraw := true },
        .ok row true none true)
    else
      ({ e with board := b1, moveHistory := hist,
                currentPlayer :=
                  if e.currentPlayer = PLAYER1 then PLAYER2 else PLAYER1 },
        .ok row false none false)

/-- The eight neighbour directions of `countAdjacentPieces`, in source
order. -/
def directions : List (Int × Int) :=
  [(0, 1), (0, -1), (1, 0), (-1, 0), (1, 1), (-1, -1), (1, -1), (-1, 1)]

/-- The `countAdjacentPieces(row, col, player)` method. -/
def countAdjacentPieces (b : Board) (row col : Int) (p : Nat) : Nat :=
  directions.countP fun d => decide (cellAt b (row + d.1) (col + d.2) = some p)

/-- The `evaluateMove(col, player)` method, kept stateful: the simulated
landing cell is written and rewritten on the engine's own board exactly as
in the source, and the final board is part of the result. -/
def evaluateMove (e : Engine) (col : Int) (p : Nat) : Engine × Int :=
  let row := findRow e.board col
  if row = -1 then (e, -1000)
  else
    let b1 := setCell e.board row col p
    if checkWin b1 row col p then
      ({ e with board := setCell b1 row col EMPTY }, 10000)
    else
      let opp := if p = PLAYER1 then PLAYER2 else PLAYER1
      let b2 := setCell b1 row col opp
      if checkWin b2 row col opp then
        ({ e with board := setCell b2 row col EMPTY }, 8000)
      else
        let b3 := setCell b2 row col EMPTY
        let centerDistance : Int := (col - 3).natAbs
        ({ e with board := b3 },
          (3 - centerDistance) * 100 + (countAdjacentPieces b3 row col p : Int) * 50)

/-- Candidate score of a column: the numeric result of `evaluateMove`. -/
def score (e : Engine) (c : Nat) (p : Nat) : Int :=
  (evaluateMove e (c : Int) p).2

/-- One of the two `for (const col of validMoves)` win-scan loops of
`BotEngine.getBestMove`, threading the engine through each `evaluateMove`
call. -/
def loopWin (p : Nat) : Engine → List Nat → Engine × Option Nat
  | e, [] => (e, none)
  | e, c :: rest =>
    let r := evaluateMove e (c : Int) p
    if 10000 ≤ r.2 then (r.1, some c) else loopWin p r.1 rest

/-- The final best-score loop of `BotEngine.getBestMove` (strict `>`
update), threading the engine. -/
def loopBest (p : Nat) : Engine → Nat → Int → List Nat → Engine × Nat
  | e, bestCol, _, [] => (e, bestCol)
  | e, bestCol, bestScore, c :: rest =>
    let r := evaluateMove e (c : Int) p
    if bestScore < r.2 then loopBest p r.1 c r.2 rest
    else loopBest p r.1 bestCol bestScore rest

/-- The `BotEngine.getBestMove()` method: `-1` on no legal move, else win
scan for the bot (`PLAYER2`), block scan for the opponent (`PLAYER1`), else
the best-score loop seeded with the first legal column. -/
def getBestMove (e : Engine) : Engine × Int :=
  match getValidMoves e.board with
  | [] => (e, -1)
  | c0 :: rest =>
    let validMoves := c0 :: rest
    let w1 := loopWin PLAYER2 e validMoves
    match w1.2 with
    | some c => (w1.1, (c : Int))
    | none =>
      let w2 := loopWin PLAYER1 w1.1 validMoves
      match w2.2 with
      | some c => (w2.1, (c : Int))
      | none =>
        let r0 := evaluateMove w2.1 (c0 : Int) PLAYER2
        let fin := loopBest PLAYER2 r0.1 c0 r0.2 validMoves
        (fin.1, (fin.2 : Int))

/-- Placing `p` in column `c` of the engine's board lands on a row and wins
immediately (the property `evaluateMove` detects with its first check). -/
def winsByLanding (e : Engine) (c : Nat) (p : Nat) : Prop :=
  ¬ findRow e.board (c : Int) = -1 ∧
    checkWin (setCell e.board (findRow e.board (c : Int)) (c : Int) p)
      (findRow e.board (c : Int)) (c : Int) p = true

/-- Driver applying `dropPiece` for a whole column sequence, discarding the
per-move results (used for concrete game tests). -/
def playMoves : Engine → List Int → Engine
  | e, [] => e
  | e, c :: rest => playMoves (dropPiece e c).1 rest

/-! ### Matchmaking service -/

/-- One participant record of a session (`player1` / `player2`); the bot
participant has `socketId === null`. -/
structure SPlayer where
  socketId : Option String
  username : String
  isBot : Bool
  connected : Bool
  disconnectTime : Option Nat
  reconnectTimeout : Option Nat
deriving DecidableEq

/-- One session object of `activeSessions` (the raw socket, `createdAt`
and the `botEngine` wrapper are omitted; `session.gameEngine` is `engine`). -/
structure Session where
  sessionId : String
  player1 : SPlayer
  player2 : SPlayer
  isVsBot : Bool
  engine : Engine
  startTime : Nat
  endTime : Option Nat
  result : Option String
  winner : Option String
deriving DecidableEq

/-- One entry of the `waitingPlayers` map (the raw socket is omitted). -/
structure WaitEntry where
  socketId : String
  username : String
  gameMode : String
  timestamp : Nat
deriving DecidableEq

/-- Whole mutable state of a `MatchmakingService` instance; the three
JavaScript `Map`s are insertion-ordered association lists, and `cancelled`
logs the ids passed to `clearTimeout`. -/
structure MState where
  waitingPlayers : List (String × WaitEntry)
  activeSessions : List (String × Session)
  matchmakingTimeouts : List (String × Nat)
  cancelled : List Nat
deriving DecidableEq

/-- `Map.get`: value at the first (unique) matching key. -/
def alookup {α : Type} : List (String × α) → String → Option α
  | [], _ => none
  | kv :: rest, k => if kv.1 = k then some kv.2 else alookup rest k

/-- `Map.delete`: remove the entries of a key. -/
def aerase {α : Type} (l : List (String × α)) (k : String) : List (String × α) :=
  l.filter fun kv => decide (¬ kv.1 = k)

/-- `Map.set`: update in place when the key is present, append otherwise. -/
def aset {α : Type} : List (String × α) → String → α → List (String × α)
  | [], k, v => [(k, v)]
  | kv :: rest, k, v => if kv.1 = k then (k, v) :: rest else kv :: aset rest k v

/-- In-place mutation of the object stored under a key (JavaScript aliasing:
mutating a fetched session object updates the map's entry). -/
def aupdate {α : Type} : List (String × α) → String → (α → α) → List (String × α)
  | [], _, _ => []
  | kv :: rest, k, f => if kv.1 = k then (k, f kv.2) :: rest else kv :: aupdate rest k f

/-- `clearTimeout` plus `Map.delete` on `matchmakingTimeouts`, guarded by
`Map.has` as in `tryPairPlayers`. -/
def clearMMTimeout (st : MState) (k : String) : MState :=
  match alookup st.matchmakingTimeouts k with
  | some tid =>
    { st with matchmakingTimeouts := aerase st.matchmakingTimeouts k,
              cancelled := st.cancelled ++ [tid] }
  | none => st

/-- The `createSession(...)` method; the fresh session id and the clock
reading are explicit arguments. -/
def createSession (st : MState) (p1Sid p1User p2Sid p2User : String)
    (isVsBot : Bool) (sessionId : String) (now : Nat) : MState × Session :=
  let session : Session :=
    { sessionId := sessionId
      player1 := ⟨some p1Sid, p1User, false, true, none, none⟩
      player2 :=
        if isVsBot then ⟨none, p2User, true, true, none, none⟩
        else ⟨some p2Sid, p2User, false, true, none, none⟩
      isVsBot := isVsBot
      engine := initEngine
      startTime := now
      endTime := none
      result := none
      winner := none }
  ({ st with activeSessions := aset st.activeSessions sessionId session }, session)

/-- The `for (const [otherId, otherPlayer] of waitingPlayers)` scan of
`tryPairPlayers`: first entry whose key differs from the joiner's. -/
def findFirstOther : List (String × WaitEntry) → String → Option (String × WaitEntry)
  | [], _ => none
  | kv :: rest, k => if ¬ kv.1 = k then some kv else findFirstOther rest k

/-- The `spawnBotOpponent(playerSocketId)` method: `none` when the player
is no longer in the waiting map, otherwise dequeue, drop any stale timeout
entry (no `clearTimeout` here: the timer itself has fired) and create a
bot session. -/
def spawnBotOpponent (st : MState) (playerSocketId : String)
    (newSessionId : String) (now : Nat) : MState × Option Session :=
  match alookup st.waitingPlayers playerSocketId with
  | none => (st, none)
  | some player =>
    let st1 :=
      { st with waitingPlayers := aerase st.waitingPlayers playerSocketId,
                matchmakingTimeouts := aerase st.matchmakingTimeouts playerSocketId }
    let cs := createSession st1 playerSocketId player.username ("BOT") ("ConnectBot")
      true newSessionId now
    (cs.1, some cs.2)

/-- The `tryPairPlayers(socketId)` method: pair with the first other waiting
entry, removing both queue entries and cancelling both wait timers, then
create a human-vs-human session. (When the caller's own entry is absent the
original would throw on `currentPlayer.username`; that path, unreachable
from `joinQueue`, is modelled as a no-op.) -/
def tryPairPlayers (st : MState) (socketId : String) (newSessionId : String)
    (now : Nat) : MState × Option (String × String) :=
  match findFirstOther st.waitingPlayers socketId, alookup st.waitingPlayers socketId with
  | some other, some currentPlayer =>
    let st1 :=
      { st with waitingPlayers := aerase (aerase st.waitingPlayers socketId) other.1 }
    let st2 := clearMMTimeout (clearMMTimeout st1 other.1) socketId
    let cs := createSession st2 socketId currentPlayer.username other.1 other.2.username
      false newSessionId now
    (cs.1, some (cs.2.sessionId, other.2.username))
  | _, _ => (st, none)

/-- Result object of `joinQueue`. -/
inductive JoinResult where
  | jerror (msg : String)
  | bot (sessionId : Option String)
  | pairedRes (sessionId : String) (opponent : String)
  | waiting
deriving DecidableEq

/-- The `joinQueue(socketId, username, socket, gameMode)` method; the fresh
session id and wait-timer id are explicit arguments. -/
def joinQueue (st : MState) (socketId username gameMode : String)
    (newSessionId : String) (newTimerId : Nat) (now : Nat) : MState × JoinResult :=
  if (alookup st.waitingPlayers socketId).isSome then
    (st, .jerror ("Already in queue"))
  else if st.activeSessions.any fun kv =>
      kv.2.player1.username == username || kv.2.player2.username == username then
    (st, .jerror ("Username already in game"))
  else
    let entry : WaitEntry := ⟨socketId, username, gameMode, now⟩
    let st1 := { st with waitingPlayers := aset st.waitingPlayers socketId entry }
    if gameMode = ("bot") then
      match spawnBotOpponent st1 socketId newSessionId now with
      | (st2, some sess) => (st2, .bot (some sess.sessionId))
      | (st2, none) => (st2, .bot none)
    else
      match tryPairPlayers st1 socketId newSessionId now with
      | (st2, some res) => (st2, .pairedRes res.1 res.2)
      | (st2, none) =>
        let timeouts' := aset st2.matchmakingTimeouts socketId newTimerId
        ({ st2 with matchmakingTimeouts := timeouts' }, .waiting)

/-- The `getSessionByPlayerId(socketId)` lookup. -/
def getSessionByPlayerId (st : MState) (socketId : String) : Option Session :=
  (st.activeSessions.find? fun kv =>
      kv.2.player1.socketId == some socketId ||
      kv.2.player2.socketId == some socketId).map fun kv => kv.2

/-- The `markDisconnected(socketId)` method; returns the session id and
`isPlayer1` flag captured by the scheduled 30-second forfeit timer. -/
def markDisconnected (st : MState) (socketId : String) (newTimerId : Nat)
    (now : Nat) : MState × Option (String × Bool) :=
  match getSessionByPlayerId st socketId with
  | none => (st, none)
  | some session =>
    let isPlayer1 := session.player1.socketId == some socketId
    let upd : SPlayer → SPlayer := fun pl =>
      { pl with connected := false, disconnectTime := some now,
                reconnectTimeout := some newTimerId }
    ({ st with activeSessions :=
        aupdate st.activeSessions session.sessionId (fun s =>
          if isPlayer1 then { s with player1 := upd s.player1 }
          else { s with player2 := upd s.player2 }) },
      some (session.sessionId, isPlayer1))

/-- Result object of `reconnect`. -/
inductive ReconnectResult where
  | failed (msg : String)
  | ok (session : Session)
deriving DecidableEq

/-- The `reconnect(socketId, username, sessionId)` method; `Date.now()` is
the explicit `now`, and `Date.now() - null` coerces the missing disconnect
time to `0` exactly as JavaScript does. -/
def reconnect (st : MState) (socketId username sessionId : String)
    (now : Nat) : MState × ReconnectResult :=
  match alookup st.activeSessions sessionId with
  | none => (st, .failed ("Session not found"))
  | some session =>
    let isPlayer1 := session.player1.username == username
    let isPlayer2 := session.player2.username == username
    if !isPlayer1 && !isPlayer2 then
      (st, .failed ("Username does not match session"))
    else
      let player := if isPlayer1 then session.player1 else session.player2
      let timeSinceDisconnect : Int :=
        (now : Int) - (match player.disconnectTime with
          | some t => (t : Int)
          | none => 0)
      if 30000 < timeSinceDisconnect then
        (st, .failed ("Reconnection window expired (30 seconds)"))
      else
        let player' : SPlayer :=
          { player with socketId := some socketId, connected := true,
                        disconnectTime := none, reconnectTimeout := none }
        let session' : Session :=
          if isPlayer1 then { session with player1 := player' }
          else { session with player2 := player' }
        let cancelled' :=
          match player.reconnectTimeout with
          | some tid => st.cancelled ++ [tid]
          | none => st.cancelled
        let sessions' := aupdate st.activeSessions sessionId (fun _ => session')
        ({ st with activeSessions := sessions', cancelled := cancelled' }, .ok session')

/-- The `forfeitGame(sessionId, isPlayer1)` method (body of the grace
timer): no-op on a missing session or an already finished game, otherwise
end the session in favour of the other participant. -/
def forfeitGame (st : MState) (sessionId : String) (isPlayer1 : Bool)
    (now : Nat) : MState :=
  match alookup st.activeSessions sessionId with
  | none => st
  | some session =>
    if session.engine.gameOver then st
    else
      let session' : Session :=
        { session with
            engine := { session.engine with gameOver := true }
            endTime := some now
            result := some ("forfeit")
            winner := some (if isPlayer1 then session.player2.username
                            else session.player1.username) }
      { st with activeSessions := aupdate st.activeSessions sessionId (fun _ => session') }

/-- Validation pipeline of the socket handler `onMakeMove` (part_004 lines
90-121): the checks performed before `dropPiece` is invoked, on the session
looked up by id (`none` models a missing session). -/
def onMakeMoveCheckS (s? : Option Session) (socketId : String) (column : Int) :
    Option String :=
  match s? with
  | none => some ("Game session not found")
  | some session =>
    if column < 0 ∨ (7 : Int) ≤ column then some ("Invalid column")
    else
      let isPlayer1 := session.player1.socketId == some socketId
      let isPlayer2 := session.player2.socketId == some socketId
      if !isPlayer1 && !isPlayer2 then some ("Not your game")
      else
        let playerNumber := if isPlayer1 then PLAYER1 else PLAYER2
        if ¬ session.engine.currentPlayer = playerNumber then some ("Not your turn")
        else none

/-! ### List and cell lemmas -/

theorem lset_nop {α : Type} (l : List α) (n : Nat) (v : α) (h : l.length ≤ n) :
    l.set n v = l := by
  induction l generalizing n with
  | nil => rfl
  | cons x xs ih =>
    cases n with
    | zero => simp at h
    | succ m => simp only [List.set]; rw [ih m (by simpa using h)]

theorem lgetD_set_self {α : Type} (l : List α) (n : Nat) (v d : α)
    (h : n < l.length) : (l.set n v).getD n d = v := by
  induction l generalizing n with
  | nil => simp at h
  | cons x xs ih =>
    cases n with
    | zero => rfl
    | succ m => simpa using ih m (by simpa using h)

theorem lgetD_set_ne {α : Type} (l : List α) (n m : Nat) (v d : α)
    (h : ¬ n = m) : (l.set n v).getD m d = l.getD m d := by
  induction l generalizing n m with
  | nil => rfl
  | cons x xs ih =>
    cases n with
    | zero =>
      cases m with
      | zero => exact absurd rfl h
      | succ k => rfl
    | succ n' =>
      cases m with
      | zero => rfl
      | succ k => simpa using ih n' k (by omega)

theorem lset_getD_self {α : Type} (l : List α) (n : Nat) (d : α) :
    l.set n (l.getD n d) = l := by
  induction l generalizing n with
  | nil => rfl
  | cons x xs ih =>
    cases n with
    | zero => rfl
    | succ m => simpa using ih m

theorem setCell_setCell (b : Board) (r c : Int) (x y : Nat) :
    setCell (setCell b r c x) r c y = setCell b r c y := by
  unfold setCell
  by_cases h : r.toNat < b.length
  · rw [lgetD_set_self _ _ _ _ h, List.set_set, List.set_set]
  · rw [lset_nop b _ _ (by omega), lset_nop b _ _ (by omega)]

theorem setCell_restore (b : Board) (r c : Int) (v : Nat)
    (h : cellAt b r c = some v) : setCell b r c v = b := by
  unfold cellAt at h
  split at h
  · have hv : (b.getD r.toNat []).getD c.toNat EMPTY = v := by
      simpa using h
    unfold setCell
    rw [← hv, lset_getD_self, lset_getD_self]
  · exact absurd h (by simp)

theorem cellAt_setCell_self (b : Board) (r c : Int) (v : Nat) (hwf : WF b)
    (hr0 : 0 ≤ r) (hr : r < 6) (hc0 : 0 ≤ c) (hc : c < 7) :
    cellAt (setCell b r c v) r c = some v := by
  have hrl : r.toNat < b.length := by
    rw [hwf.1]; unfold ROWS; omega
  have hrow : (b.getD r.toNat []).length = COLS := by
    have hb : b.getD r.toNat [] = b.get ⟨r.toNat, hrl⟩ := by
      rw [List.getD_eq_getElem?_getD, List.getElem?_eq_getElem hrl]
      rfl
    rw [hb]
    exact hwf.2 _ (b.get_mem _ _)
  have hcl : c.toNat < (b.getD r.toNat []).length := by
    rw [hrow]; unfold COLS; omega
  unfold cellAt setCell
  rw [if_pos ⟨hr0, by unfold ROWS; omega, hc0, by unfold COLS; omega⟩]
  rw [lgetD_set_self _ _ _ _ hrl, lgetD_set_self _ _ _ _ hcl]

theorem cellAt_setCell_ne (b : Board) (r c r' c' : Int) (v : Nat)
    (hr0 : 0 ≤ r) (hr : r < 6) (hc0 : 0 ≤ c) (hc : c < 7)
    (hne : ¬ (r' = r ∧ c' = c)) :
    cellAt (setCell b r c v) r' c' = cellAt b r' c' := by
  unfold cellAt setCell
  split
  · rename_i hin
    unfold ROWS COLS at hin
    by_cases hrr : r' = r
    · have hcc : ¬ c' = c := fun hcc => hne ⟨hrr, hcc⟩
      rw [hrr]
      by_cases hbl : r.toNat < b.length
      · rw [lgetD_set_self _ _ _ _ hbl, lgetD_set_ne _ _ _ _ _ (by omega)]
      · rw [lset_nop b _ _ (by omega)]
    · rw [lgetD_set_ne _ _ _ _ _ (by omega)]
  · rfl

/-! ### findRow lemmas -/

theorem findRowAux_cases (b : Board) (col : Int) :
    ∀ k : Nat,
      (findRowAux b col k = -1 ∧
        ∀ r : Nat, r < k → ¬ cellAt b (r : Int) col = some EMPTY) ∨
      (∃ r : Nat, r < k ∧ findRowAux b col k = (r : Int) ∧
        cellAt b (r : Int) col = some EMPTY ∧
        ∀ r' : Nat, r < r' → r' < k → ¬ cellAt b (r' : Int) col = some EMPTY) := by
  intro k
  induction k with
  | zero => exact Or.inl ⟨rfl, by omega⟩
  | succ n ih =>
    by_cases h : cellAt b (n : Int) col = some EMPTY
    · refine Or.inr ⟨n, by omega, ?_, h, by omega⟩
      unfold findRowAux
      rw [if_pos h]
    · rcases ih with ⟨h1, h2⟩ | ⟨r, hr, he, hc, hmax⟩
      · refine Or.inl ⟨?_, ?_⟩
        · unfold findRowAux; rw [if_neg h]; exact h1
        · intro r hrk
          by_cases hrn : r = n
          · subst hrn; exact h
          · exact h2 r (by omega)
      · refine Or.inr ⟨r, by omega, ?_, hc, ?_⟩
        · unfold findRowAux; rw [if_neg h]; exact he
        · intro r' hlt hup
          by_cases hrn : r' = n
          · subst hrn; exact h
          · exact hmax r' hlt (by omega)

theorem findRow_pos (b : Board) (col : Int)
    (h : cellAt b 0 col = some EMPTY) :
    ∃ r : Nat, r < 6 ∧ findRow b col = (r : Int) ∧
      cellAt b (r : Int) col = some EMPTY ∧
      ∀ r' : Nat, r < r' → r' < 6 → ¬ cellAt b (r' : Int) col = some EMPTY := by
  rcases findRowAux_cases b col 6 with ⟨_, h2⟩ | ⟨r, hr, he, hc, hmax⟩
  · exact absurd h (by simpa using h2 0 (by omega))
  · exact ⟨r, hr, he, hc, hmax⟩

theorem findRow_empty (b : Board) (col : Int)
    (h : ¬ findRow b col = -1) :
    cellAt b (findRow b col) col = some EMPTY := by
  rcases findRowAux_cases b col 6 with ⟨h1, _⟩ | ⟨r, _, he, hc, _⟩
  · exact absurd h1 h
  · rw [show findRow b col = findRowAux b col 6 from rfl, he]; exact hc

/-! ### countConsecutive and checkWin lemmas -/

theorem countDir_mem (b : Board) (p : Nat) (dr dc : Int) :
    ∀ (fuel : Nat) (r c : Int) (i : Nat),
      i < countDir b p dr dc r c fuel →
      cellAt b (r + (i : Int) * dr) (c + (i : Int) * dc) = some p := by
  intro fuel
  induction fuel with
  | zero => intro r c i h; simp [countDir] at h
  | succ n ih =>
    intro r c i h
    unfold countDir at h
    split at h
    · rename_i hcell
      cases i with
      | zero => simpa using hcell
      | succ j =>
        have := ih (r + dr) (c + dc) j (by omega)
        have e1 : r + dr + (j : Int) * dr = r + ((j : Int) + 1) * dr := by ring
        have e2 : c + dc + (j : Int) * dc = c + ((j : Int) + 1) * dc := by ring
        rw [e1, e2] at this
        simpa [Nat.cast_add] using this
    · omega

theorem countDir_ge (b : Board) (p : Nat) (dr dc : Int) :
    ∀ (fuel m : Nat) (r c : Int), m ≤ fuel →
      (∀ i : Nat, i < m → cellAt b (r + (i : Int) * dr) (c + (i : Int) * dc) = some p) →
      m ≤ countDir b p dr dc r c fuel := by
  intro fuel
  induction fuel with
  | zero => intro m r c hm _; omega
  | succ n ih =>
    intro m r c hm hall
    cases m with
    | zero => omega
    | succ k =>
      have h0 : cellAt b r c = some p := by simpa using hall 0 (by omega)
      unfold countDir
      rw [if_pos h0]
      have : k ≤ countDir b p dr dc (r + dr) (c + dc) n := by
        apply ih k (r + dr) (c + dc) (by omega)
        intro i hi
        have := hall (i + 1) (by omega)
        have e1 : r + ((i : Int) + 1) * dr = r + dr + (i : Int) * dr := by ring
        have e2 : c + ((i : Int) + 1) * dc = c + dc + (i : Int) * dc := by ring
        rw [show ((i + 1 : Nat) : Int) = (i : Int) + 1 by push_cast; ring, e1, e2] at this
        exact this
      omega

/-- Specification-side reading of a winning axis: some aligned window of 4
consecutive cells of mark `p` contains the placed cell (offset `0`). -/
def hasRun (b : Board) (row col dr dc : Int) (p : Nat) : Prop :=
  ∃ a : Int, -3 ≤ a ∧ a ≤ 0 ∧ ∀ k : Nat, k < 4 →
    cellAt b (row + (a + (k : Int)) * dr) (col + (a + (k : Int)) * dc) = some p

theorem countConsecutive_iff (b : Board) (row col dr dc : Int) (p : Nat)
    (hp : cellAt b row col = some p) :
    4 ≤ countConsecutive b row col dr dc p ↔ hasRun b row col dr dc p := by
  unfold countConsecutive
  set F := countDir b p dr dc (row + dr) (col + dc) 8 with hF
  set B := countDir b p (-dr) (-dc) (row - dr) (col - dc) 8 with hB
  constructor
  · intro h
    refine ⟨-(min (B : Int) 3), by omega, by omega, ?_⟩
    intro k hk
    set o : Int := -(min (B : Int) 3) + (k : Int) with ho
    rcases lt_trichotomy o 0 with hneg | hzero | hpos
    · have hi : ∃ i : Nat, (i : Int) = -o - 1 ∧ i < B := by
        refine ⟨(-o - 1).toNat, by omega, by omega⟩
      rcases hi with ⟨i, hi1, hi2⟩
      have := countDir_mem b p (-dr) (-dc) 8 (row - dr) (col - dc) i hi2
      have e1 : row - dr + (i : Int) * -dr = row + o * dr := by rw [hi1]; ring
      have e2 : col - dc + (i : Int) * -dc = col + o * dc := by rw [hi1]; ring
      rw [e1, e2] at this
      exact this
    · rw [hzero]
      simpa using hp
    · have hoF : o ≤ (F : Int) := by omega
      have hi : ∃ i : Nat, (i : Int) = o - 1 ∧ i < F := by
        refine ⟨(o - 1).toNat, by omega, by omega⟩
      rcases hi with ⟨i, hi1, hi2⟩
      have := countDir_mem b p dr dc 8 (row + dr) (col + dc) i hi2
      have e1 : row + dr + (i : Int) * dr = row + o * dr := by rw [hi1]; ring
      have e2 : col + dc + (i : Int) * dc = col + o * dc := by rw [hi1]; ring
      rw [e1, e2] at this
      exact this
  · rintro ⟨a, ha3, ha0, hwin⟩
    have hFge : ((a + 3).toNat : Int) ≤ (F : Int) := by
      have : (a + 3).toNat ≤ F := by
        apply countDir_ge b p dr dc 8 _ _ _ (by omega)
        intro i hi
        have hk : ∃ k : Nat, (k : Int) = (i : Int) + 1 - a ∧ k < 4 := by
          refine ⟨((i : Int) + 1 - a).toNat, by omega, by omega⟩
        rcases hk with ⟨k, hk1, hk2⟩
        have := hwin k hk2
        have e1 : row + (a + (k : Int)) * dr = row + dr + (i : Int) * dr := by
          rw [hk1]; ring
        have e2 : col + (a + (k : Int)) * dc = col + dc + (i : Int) * dc := by
          rw [hk1]; ring
        rw [e1, e2] at this
        exact this
      omega
    have hBge : ((-a).toNat : Int) ≤ (B : Int) := by
      have : (-a).toNat ≤ B := by
        apply countDir_ge b p (-dr) (-dc) 8 _ _ _ (by omega)
        intro i hi
        have hk : ∃ k : Nat, (k : Int) = -(i : Int) - 1 - a ∧ k < 4 := by
          refine ⟨(-(i : Int) - 1 - a).toNat, by omega, by omega⟩
        rcases hk with ⟨k, hk1, hk2⟩
        have := hwin k hk2
        have e1 : row + (a + (k : Int)) * dr = row - dr + (i : Int) * -dr := by
          rw [hk1]; ring
        have e2 : col + (a + (k : Int)) * dc = col - dc + (i : Int) * -dc := by
          rw [hk1]; ring
        rw [e1, e2] at this
        exact this
      omega
    omega

theorem checkWin_iff_hasRun (b : Board) (row col : Int) (p : Nat)
    (hp : cellAt b row col = some p) :
    checkWin b row col p = true ↔
      hasRun b row col 0 1 p ∨ hasRun b row col 1 0 p ∨
      hasRun b row col 1 1 p ∨ hasRun b row col 1 (-1) p := by
  unfold checkWin
  rw [Bool.or_eq_true, Bool.or_eq_true, Bool.or_eq_true]
  simp only [decide_eq_true_eq]
  rw [countConsecutive_iff b row col 0 1 p hp,
      countConsecutive_iff b row col 1 0 p hp,
      countConsecutive_iff b row col 1 1 p hp,
      countConsecutive_iff b row col 1 (-1) p hp]
  tauto

/-! ### evaluateMove and getBestMove lemmas -/

theorem evaluateMove_fst (e : Engine) (col : Int) (p : Nat) :
    (evaluateMove e col p).1 = e := by
  by_cases h : findRow e.board col = -1
  · simp [evaluateMove, h]
  · have hcell := findRow_empty e.board col h
    simp only [evaluateMove, if_neg h]
    split
    · simp [setCell_setCell, setCell_restore _ _ _ _ hcell]
    · simp only [setCell_setCell, setCell_restore _ _ _ _ hcell]
      repeat' split
      all_goals rfl

theorem countAdjacentPieces_le (b : Board) (row col : Int) (p : Nat) :
    countAdjacentPieces b row col p ≤ 8 :=
  le_trans (List.countP_le_length _) (by rfl)

theorem positional_lt (b : Board) (row col : Int) (p : Nat) :
    (3 - ((col - 3).natAbs : Int)) * 100 +
      (countAdjacentPieces b row col p : Int) * 50 < 10000 := by
  have h := countAdjacentPieces_le b row col p
  omega

theorem score_win_iff (e : Engine) (c : Nat) (p : Nat) :
    10000 ≤ score e c p ↔ winsByLanding e c p := by
  unfold score winsByLanding
  by_cases h : findRow e.board (c : Int) = -1
  · simp [evaluateMove, h]
  · simp only [evaluateMove, if_neg h]
    by_cases hw : checkWin (setCell e.board (findRow e.board (c : Int)) (c : Int) p)
        (findRow e.board (c : Int)) (c : Int) p = true
    · simp [if_pos hw, h, hw]
    · rw [if_neg hw]
      constructor
      · intro habs
        exfalso
        revert habs
        repeat' split
        all_goals intro habs
        all_goals
          first
          | omega
          | exact absurd habs (not_le.mpr (positional_lt _ _ _ _))
      · intro hh
        exact absurd hh.2 hw

/-- Pure value computed by the first win-scan loop (the engine is restored
after every `evaluateMove`, so the loop's engine argument never changes). -/
def firstWin (p : Nat) (e : Engine) : List Nat → Option Nat
  | [] => none
  | c :: rest => if 10000 ≤ score e c p then some c else firstWin p e rest

theorem loopWin_eq (p : Nat) (e : Engine) :
    ∀ l : List Nat, loopWin p e l = (e, firstWin p e l) := by
  intro l
  induction l with
  | nil => rfl
  | cons c rest ih =>
    have hf := evaluateMove_fst e (c : Int) p
    by_cases h : 10000 ≤ (evaluateMove e (c : Int) p).2
    · simp [loopWin, firstWin, score, h, hf]
    · simp [loopWin, firstWin, score, h, hf, ih]

/-- Pure value computed by the best-score loop. -/
def bestFold (p : Nat) (e : Engine) : Nat → Int → List Nat → Nat × Int
  | bc, bs, [] => (bc, bs)
  | bc, bs, c :: rest =>
    if bs < score e c p then bestFold p e c (score e c p) rest
    else bestFold p e bc bs rest

theorem bestFold_cons (p : Nat) (e : Engine) (bc : Nat) (bs : Int) (c : Nat)
    (rest : List Nat) :
    bestFold p e bc bs (c :: rest) =
      if bs < score e c p then bestFold p e c (score e c p) rest
      else bestFold p e bc bs rest := rfl

theorem loopBest_eq (p : Nat) (e : Engine) :
    ∀ (l : List Nat) (bc : Nat) (bs : Int),
      loopBest p e bc bs l = (e, (bestFold p e bc bs l).1) := by
  intro l
  induction l with
  | nil => intro bc bs; rfl
  | cons c rest ih =>
    intro bc bs
    have hf := evaluateMove_fst e (c : Int) p
    by_cases h : bs < (evaluateMove e (c : Int) p).2
    · simp [loopBest, bestFold, score, h, hf, ih]
    · simp [loopBest, bestFold, score, h, hf, ih]

theorem firstWin_none_iff (p : Nat) (e : Engine) :
    ∀ l : List Nat, firstWin p e l = none ↔ ∀ c ∈ l, ¬ 10000 ≤ score e c p := by
  intro l
  induction l with
  | nil => simp [firstWin]
  | cons c rest ih =>
    by_cases h : 10000 ≤ score e c p
    · simp [firstWin, h]
    · simp only [firstWin, if_neg h, ih]
      constructor
      · intro hall d hd
        rcases List.mem_cons.mp hd with rfl | hd
        · exact h
        · exact hall d hd
      · intro hall d hd
        exact hall d (List.mem_cons_of_mem _ hd)

theorem firstWin_some (p : Nat) (e : Engine) :
    ∀ (l : List Nat) (c : Nat), List.Pairwise (· < ·) l →
      firstWin p e l = some c →
      c ∈ l ∧ 10000 ≤ score e c p ∧ ∀ c' ∈ l, 10000 ≤ score e c' p → c ≤ c' := by
  intro l
  induction l with
  | nil => intro c _ h; simp [firstWin] at h
  | cons d rest ih =>
    intro c hpw h
    unfold firstWin at h
    by_cases hd : 10000 ≤ score e d p
    · rw [if_pos hd] at h
      have hdc : d = c := by simpa using h
      subst hdc
      refine ⟨List.mem_cons_self _ _, hd, ?_⟩
      intro c' hc' _
      rcases List.mem_cons.mp hc' with rfl | hc'
      · exact le_refl _
      · exact le_of_lt ((List.pairwise_cons.mp hpw).1 c' hc')
    · rw [if_neg hd] at h
      obtain ⟨hm, hs, hmin⟩ := ih c (List.pairwise_cons.mp hpw).2 h
      refine ⟨List.mem_cons_of_mem _ hm, hs, ?_⟩
      intro c' hc' hs'
      rcases List.mem_cons.mp hc' with rfl | hc'
      · exact absurd hs' hd
      · exact hmin c' hc' hs'

theorem bestFold_spec (p : Nat) (e : Engine) :
    ∀ (l : List Nat) (bc : Nat) (bs : Int), bs = score e bc p →
      List.Pairwise (· < ·) l → (∀ c ∈ l, bc < c) →
      (bestFold p e bc bs l).2 = score e (bestFold p e bc bs l).1 p ∧
      ((bestFold p e bc bs l).1 = bc ∨ (bestFold p e bc bs l).1 ∈ l) ∧
      bs ≤ (bestFold p e bc bs l).2 ∧
      (∀ c ∈ l, score e c p ≤ (bestFold p e bc bs l).2) ∧
      ((bestFold p e bc bs l).1 = bc ∨ bs < (bestFold p e bc bs l).2) ∧
      (∀ c ∈ l, score e c p = (bestFold p e bc bs l).2 → (bestFold p e bc bs l).1 ≤ c) ∧
      bc ≤ (bestFold p e bc bs l).1 := by
  intro l
  induction l with
  | nil =>
    intro bc bs hbs _ _
    simp [bestFold, hbs]
  | cons c rest ih =>
    intro bc bs hbs hpw hlt
    have hc0 : bc < c := hlt c (List.mem_cons_self _ _)
    have hpw' := (List.pairwise_cons.mp hpw).2
    have hhead := (List.pairwise_cons.mp hpw).1
    by_cases h : bs < score e c p
    · rw [bestFold_cons, if_pos h]
      obtain ⟨i1, i2, i3, i4, i5, i6, i7⟩ := ih c (score e c p) rfl hpw' hhead
      refine ⟨i1, ?_, ?_, ?_, ?_, ?_, ?_⟩
      · rcases i2 with h2 | h2
        · exact Or.inr (by rw [h2]; exact List.mem_cons_self _ _)
        · exact Or.inr (List.mem_cons_of_mem _ h2)
      · omega
      · intro d hd
        rcases List.mem_cons.mp hd with rfl | hd
        · omega
        · exact i4 d hd
      · omega
      · intro d hd hds
        rcases List.mem_cons.mp hd with rfl | hd
        · rcases i5 with h5 | h5
          · omega
          · omega
        · exact i6 d hd hds
      · omega
    · rw [bestFold_cons, if_neg h]
      obtain ⟨i1, i2, i3, i4, i5, i6, i7⟩ := ih bc bs hbs hpw' (fun d hd => by
        have := hhead d hd; omega)
      refine ⟨i1, ?_, i3, ?_, i5, ?_, i7⟩
      · rcases i2 with h2 | h2
        · exact Or.inl h2
        · exact Or.inr (List.mem_cons_of_mem _ h2)
      · intro d hd
        rcases List.mem_cons.mp hd with rfl | hd
        · omega
        · exact i4 d hd
      · intro d hd hds
        rcases List.mem_cons.mp hd with rfl | hd
        · rcases i5 with h5 | h5
          · omega
          · omega
        · exact i6 d hd hds

theorem getValidMoves_pairwise (b : Board) :
    List.Pairwise (· < ·) (getValidMoves b) :=
  List.Pairwise.filter _ (List.pairwise_lt_range COLS)

theorem mem_getValidMoves (b : Board) (c : Nat) :
    c ∈ getValidMoves b ↔ c < COLS ∧ cellAt b 0 (c : Int) = some EMPTY := by
  unfold getValidMoves
  rw [List.mem_filter, List.mem_range]
  simp

theorem getBestMove_eq (e : Engine) (c0 : Nat) (rest : List Nat)
    (hvm : getValidMoves e.board = c0 :: rest) :
    (getBestMove e).2 =
      (match firstWin PLAYER2 e (c0 :: rest) with
      | some c => (c : Int)
      | none =>
        match firstWin PLAYER1 e (c0 :: rest) with
        | some c => (c : Int)
        | none =>
          ((bestFold PLAYER2 e c0 (score e c0 PLAYER2) (c0 :: rest)).1 : Int)) := by
  unfold getBestMove
  rw [hvm]
  simp only [loopWin_eq, loopBest_eq, evaluateMove_fst]
  rcases h2 : firstWin PLAYER2 e (c0 :: rest) with _ | c
  · rcases h1 : firstWin PLAYER1 e (c0 :: rest) with _ | c
    · simp [h2, h1, loopWin_eq, loopBest_eq, evaluateMove_fst, score]
    · simp [h2, h1, loopWin_eq]
  · simp [h2]

/-! ### Association-list lemmas for the matchmaking maps -/

theorem alookup_aerase_self {α : Type} (l : List (String × α)) (k : String) :
    alookup (aerase l k) k = none := by
  induction l with
  | nil => rfl
  | cons kv rest ih =>
    by_cases h : kv.1 = k
    · simpa [aerase, List.filter_cons, h] using ih
    · simpa [aerase, List.filter_cons, h, alookup] using ih

theorem alookup_aerase_ne {α : Type} (l : List (String × α)) (k k' : String)
    (h : ¬ k' = k) : alookup (aerase l k) k' = alookup l k' := by
  induction l with
  | nil => rfl
  | cons kv rest ih =>
    by_cases hk : kv.1 = k
    · have hne : ¬ kv.1 = k' := by rw [hk]; exact fun hh => h hh.symm
      have hne2 : ¬ k = k' := fun hh => h hh.symm
      simp [aerase, List.filter_cons, hk, alookup, hne, hne2] at ih ⊢
      exact ih
    · simp [aerase, List.filter_cons, hk, alookup] at ih ⊢
      by_cases hv : kv.1 = k'
      · simp [hv]
      · simp [hv, ih]

theorem alookup_aupdate_self {α : Type} (l : List (String × α)) (k : String)
    (f : α → α) : alookup (aupdate l k f) k = (alookup l k).map f := by
  induction l with
  | nil => rfl
  | cons kv rest ih =>
    by_cases h : kv.1 = k
    · simp [aupdate, h, alookup]
    · simp [aupdate, h, alookup, ih]

theorem alookup_aupdate_ne {α : Type} (l : List (String × α)) (k k' : String)
    (f : α → α) (h : ¬ k' = k) :
    alookup (aupdate l k f) k' = alookup l k' := by
  induction l with
  | nil => rfl
  | cons kv rest ih =>
    by_cases hk : kv.1 = k
    · have hne : ¬ k = k' := fun hh => h hh.symm
      have hne' : ¬ kv.1 = k' := by rw [hk]; exact hne
      simp [aupdate, hk, alookup, hne, hne']
    · simp only [aupdate, if_neg hk]
      by_cases hv : kv.1 = k'
      · simp [alookup, hv]
      · simp [alookup, hv, ih]

theorem clearMMTimeout_waiting (st : MState) (k : String) :
    (clearMMTimeout st k).waitingPlayers = st.waitingPlayers := by
  unfold clearMMTimeout
  split <;> rfl

theorem clearMMTimeout_sessions (st : MState) (k : String) :
    (clearMMTimeout st k).activeSessions = st.activeSessions := by
  unfold clearMMTimeout
  split <;> rfl

theorem alookup_clearMMTimeout_self (st : MState) (k : String) :
    alookup (clearMMTimeout st k).matchmakingTimeouts k = none := by
  unfold clearMMTimeout
  rcases h : alookup st.matchmakingTimeouts k with _ | tid
  · simpa using h
  · simpa using alookup_aerase_self st.matchmakingTimeouts k

theorem alookup_clearMMTimeout_ne (st : MState) (k k' : String) (h : ¬ k' = k) :
    alookup (clearMMTimeout st k).matchmakingTimeouts k' =
      alookup st.matchmakingTimeouts k' := by
  unfold clearMMTimeout
  rcases h' : alookup st.matchmakingTimeouts k with _ | tid
  · rfl
  · simpa using alookup_aerase_ne st.matchmakingTimeouts k k' h

theorem clearMMTimeout_cancelled_mono (st : MState) (k : String) (t : Nat)
    (h : t ∈ st.cancelled) : t ∈ (clearMMTimeout st k).cancelled := by
  unfold clearMMTimeout
  rcases h' : alookup st.matchmakingTimeouts k with _ | tid
  · exact h
  · simpa using Or.inl h

theorem clearMMTimeout_cancelled_self (st : MState) (k : String) (tid : Nat)
    (h : alookup st.matchmakingTimeouts k = some tid) :
    tid ∈ (clearMMTimeout st k).cancelled := by
  unfold clearMMTimeout
  rw [h]
  simp

/-! ### Claim theorems -/

/-- Reduction of `dropPiece` on an out-of-range column. -/
theorem dropPiece_invalid (e : Engine) (col : Int)
    (hr : col < 0 ∨ (COLS : Int) ≤ col) :
    dropPiece e col = (e, .err ("Invalid column")) := by
  unfold dropPiece
  rw [if_pos hr]

/-- Reduction of `dropPiece` on an in-range full column. -/
theorem dropPiece_colfull (e : Engine) (col : Int)
    (hr : ¬ (col < 0 ∨ (COLS : Int) ≤ col))
    (htop : ¬ cellAt e.board 0 col = some EMPTY) :
    dropPiece e col = (e, .err ("Column is full")) := by
  unfold dropPiece
  rw [if_neg hr, if_pos htop]

/-- Reduction of `dropPiece` on a winning move. -/
theorem dropPiece_win (e : Engine) (col : Int)
    (hr : ¬ (col < 0 ∨ (COLS : Int) ≤ col))
    (htop : cellAt e.board 0 col = some EMPTY)
    (hwin : checkWin (setCell e.board (findRow e.board col) col e.currentPlayer)
      (findRow e.board col) col e.currentPlayer = true) :
    dropPiece e col =
      ({ e with board := setCell e.board (findRow e.board col) col e.currentPlayer,
                moveHistory :=
                  e.moveHistory ++ [(findRow e.board col, col, e.currentPlayer)],
                gameOver := true, winner := some e.currentPlayer },
        .ok (findRow e.board col) true (some e.currentPlayer) false) := by
  unfold dropPiece
  rw [if_neg hr, if_neg (not_not_intro htop)]
  dsimp only
  rw [if_pos hwin]

/-- Reduction of `dropPiece` on a board-filling non-winning move. -/
theorem dropPiece_draw (e : Engine) (col : Int)
    (hr : ¬ (col < 0 ∨ (COLS : Int) ≤ col))
    (htop : cellAt e.board 0 col = some EMPTY)
    (hnwin : ¬ checkWin (setCell e.board (findRow e.board col) col e.currentPlayer)
      (findRow e.board col) col e.currentPlayer = true)
    (hfull : isBoardFull (setCell e.board (findRow e.board col) col e.currentPlayer) = true) :
    dropPiece e col =
      ({ e with board := setCell e.board (findRow e.board col) col e.currentPlayer,
                moveHistory :=
                  e.moveHistory ++ [(findRow e.board col, col, e.currentPlayer)],
                gameOver := true, isDraw := true },
        .ok (findRow e.board col) true none true) := by
  unfold dropPiece
  rw [if_neg hr, if_neg (not_not_intro htop)]
  dsimp only
  rw [if_neg hnwin, if_pos hfull]

/-- Reduction of `dropPiece` on an ordinary (non-terminal) move. -/
theorem dropPiece_cont (e : Engine) (col : Int)
    (hr : ¬ (col < 0 ∨ (COLS : Int) ≤ col))
    (htop : cellAt e.board 0 col = some EMPTY)
    (hnwin : ¬ checkWin (setCell e.board (findRow e.board col) col e.currentPlayer)
      (findRow e.board col) col e.currentPlayer = true)
    (hnfull : ¬ isBoardFull (setCell e.board (findRow e.board col) col e.currentPlayer) = true) :
    dropPiece e col =
      ({ e with board := setCell e.board (findRow e.board col) col e.currentPlayer,
                moveHistory :=
                  e.moveHistory ++ [(findRow e.board col, col, e.currentPlayer)],
                currentPlayer :=
                  if e.currentPlayer = PLAYER1 then PLAYER2 else PLAYER1 },
        .ok (findRow e.board col) false none false) := by
  unfold dropPiece
  rw [if_neg hr, if_neg (not_not_intro htop)]
  dsimp only
  rw [if_neg hnwin, if_neg hnfull]

/-- C1: `dropPiece(c)` returns the error `Invalid column` exactly when the
column is outside `[0, 7)`; returns `Column is full` exactly when the column
is in range and the top cell of the column is occupied; leaves the whole
engine state (board, move history, current player, game-over status)
unchanged in both error cases; and otherwise places the current player's
mark in the lowest empty cell of the column, appends exactly one move
record, and returns the landing row together with a terminal flag. -/
theorem dropPiece_contract (e : Engine) (col : Int) (hwf : WF e.board) :
    ((dropPiece e col).2 = .err ("Invalid column") ↔ col < 0 ∨ 7 ≤ col) ∧
    ((dropPiece e col).2 = .err ("Column is full") ↔
      0 ≤ col ∧ col < 7 ∧ ¬ cellAt e.board 0 col = some EMPTY) ∧
    (∀ msg, (dropPiece e col).2 = .err msg → (dropPiece e col).1 = e) ∧
    (0 ≤ col → col < 7 → cellAt e.board 0 col = some EMPTY →
      ∃ row : Int, 0 ≤ row ∧ row < 6 ∧
        cellAt e.board row col = some EMPTY ∧
        (∀ r' : Int, row < r' → r' < 6 → ¬ cellAt e.board r' col = some EMPTY) ∧
        cellAt (dropPiece e col).1.board row col = some e.currentPlayer ∧
        (∀ r' c' : Int, ¬ (r' = row ∧ c' = col) →
          cellAt (dropPiece e col).1.board r' c' = cellAt e.board r' c') ∧
        (dropPiece e col).1.moveHistory =
          e.moveHistory ++ [(row, col, e.currentPlayer)] ∧
        ∃ g w d, (dropPiece e col).2 = .ok row g w d ∧
          (g = true ↔
            checkWin (dropPiece e col).1.board row col e.currentPlayer = true ∨
            isBoardFull (dropPiece e col).1.board = true)) := by
  have hC : ((COLS : Nat) : Int) = 7 := rfl
  by_cases hr : col < 0 ∨ (COLS : Int) ≤ col
  · rw [dropPiece_invalid e col hr]
    simp only [hC] at hr
    refine ⟨⟨fun _ => hr, fun _ => rfl⟩, ?_, fun msg _ => rfl, fun h1 h2 _ => by omega⟩
    constructor
    · intro h
      simp at h
    · intro h
      omega
  · have hcol : 0 ≤ col ∧ col < 7 := by simp only [hC] at hr; omega
    by_cases htop : cellAt e.board 0 col = some EMPTY
    · obtain ⟨r, hr6, hfr, hempty, hmax⟩ := findRow_pos e.board col htop
      have hmaxI : ∀ r' : Int, (r : Int) < r' → r' < 6 →
          ¬ cellAt e.board r' col = some EMPTY := by
        intro r' hlo hhi
        obtain ⟨n, hn, hn1, hn2⟩ :
            ∃ n : Nat, (n : Int) = r' ∧ r < n ∧ n < 6 :=
          ⟨r'.toNat, by omega, by omega, by omega⟩
        rw [← hn]
        exact hmax n hn1 hn2
      by_cases hwin : checkWin (setCell e.board (findRow e.board col) col e.currentPlayer)
          (findRow e.board col) col e.currentPlayer = true
      · have hd := dropPiece_win e col hr htop hwin
        rw [hfr] at hd hwin
        rw [hd]
        refine ⟨⟨fun h => absurd h (by simp), fun h => by omega⟩,
                ⟨fun h => absurd h (by simp), fun h => absurd htop h.2.2⟩,
                fun msg h => absurd h (by simp),
                fun _ _ _ => ?_⟩
        refine ⟨(r : Int), by omega, by omega, hempty, hmaxI, ?_, ?_, rfl,
                true, some e.currentPlayer, false, rfl, ?_⟩
        · exact cellAt_setCell_self e.board _ col e.currentPlayer hwf
            (by omega) (by omega) (by omega) (by omega)
        · intro r' c' hne
          exact cellAt_setCell_ne e.board _ col r' c' e.currentPlayer
            (by omega) (by omega) (by omega) (by omega) hne
        · exact ⟨fun _ => Or.inl hwin, fun _ => rfl⟩
      · by_cases hfull : isBoardFull (setCell e.board (findRow e.board col) col
            e.currentPlayer) = true
        · have hd := dropPiece_draw e col hr htop hwin hfull
          rw [hfr] at hd hfull
          rw [hd]
          refine ⟨⟨fun h => absurd h (by simp), fun h => by omega⟩,
                  ⟨fun h => absurd h (by simp), fun h => absurd htop h.2.2⟩,
                  fun msg h => absurd h (by simp),
                  fun _ _ _ => ?_⟩
          refine ⟨(r : Int), by omega, by omega, hempty, hmaxI, ?_, ?_, rfl,
                  true, none, true, rfl, ?_⟩
          · exact cellAt_setCell_self e.board _ col e.currentPlayer hwf
              (by omega) (by omega) (by omega) (by omega)
          · intro r' c' hne
            exact cellAt_setCell_ne e.board _ col r' c' e.currentPlayer
              (by omega) (by omega) (by omega) (by omega) hne
          · exact ⟨fun _ => Or.inr hfull, fun _ => rfl⟩
        · have hd := dropPiece_cont e col hr htop hwin hfull
          rw [hfr] at hd hwin hfull
          rw [hd]
          refine ⟨⟨fun h => absurd h (by simp), fun h => by omega⟩,
                  ⟨fun h => absurd h (by simp), fun h => absurd htop h.2.2⟩,
                  fun msg h => absurd h (by simp),
                  fun _ _ _ => ?_⟩
          refine ⟨(r : Int), by omega, by omega, hempty, hmaxI, ?_, ?_, rfl,
                  false, none, false, rfl, ?_⟩
          · exact cellAt_setCell_self e.board _ col e.currentPlayer hwf
              (by omega) (by omega) (by omega) (by omega)
          · intro r' c' hne
            exact cellAt_setCell_ne e.board _ col r' c' e.currentPlayer
              (by omega) (by omega) (by omega) (by omega) hne
          · refine ⟨fun h => absurd h (by simp), fun h => ?_⟩
            rcases h with h | h
            · exact absurd h hwin
            · exact absurd h hfull
    · rw [dropPiece_colfull e col hr htop]
      refine ⟨?_, ?_, fun msg _ => rfl, fun _ _ h => absurd h htop⟩
      · constructor
        · intro h
          simp at h
        · intro h
          simp only [hC] at hr
          omega
      · exact ⟨fun _ => ⟨by omega, by omega, htop⟩, fun _ => rfl⟩

/-- Witness for C1: the hypothesis holds at the initial engine with column
3, and the first conjunct evaluates there. -/
theorem dropPiece_contract_witness :
    WF initEngine.board ∧
      ((dropPiece initEngine 3).2 = .err ("Invalid column") ↔
        (3 : Int) < 0 ∨ 7 ≤ (3 : Int)) :=
  ⟨by decide, (dropPiece_contract initEngine 3 (by decide)).1⟩

/-- C2: on a cell holding mark `p`, `checkWin(row, col, p)` returns `true`
iff one of the four axes (horizontal, vertical, diagonal down-right,
diagonal down-left) carries a run of at least 4 contiguous cells of mark
`p` through the placed cell, counting the placed cell and extending in both
directions; and concretely, dropping into columns 0,1,0,1,0,1,0 (the engine
alternating marks 1,2,1,2,1,2,1) ends with a vertical win for mark 1 on the
seventh move, whose pieces then occupy rows 5,4,3,2 of column 0. -/
theorem checkWin_contract :
    (∀ (b : Board) (row col : Int) (p : Nat), cellAt b row col = some p →
      (checkWin b row col p = true ↔
        hasRun b row col 0 1 p ∨ hasRun b row col 1 0 p ∨
        hasRun b row col 1 1 p ∨ hasRun b row col 1 (-1) p)) ∧
    ((playMoves initEngine [0, 1, 0, 1, 0, 1]).gameOver = false ∧
      (playMoves initEngine [0, 1, 0, 1, 0, 1]).moveHistory =
        [(5, 0, PLAYER1), (5, 1, PLAYER2), (4, 0, PLAYER1),
          (4, 1, PLAYER2), (3, 0, PLAYER1), (3, 1, PLAYER2)] ∧
      (dropPiece (playMoves initEngine [0, 1, 0, 1, 0, 1]) 0).2 =
        .ok 2 true (some PLAYER1) false ∧
      (playMoves initEngine [0, 1, 0, 1, 0, 1, 0]).gameOver = true ∧
      (playMoves initEngine [0, 1, 0, 1, 0, 1, 0]).winner = some PLAYER1 ∧
      cellAt (playMoves initEngine [0, 1, 0, 1, 0, 1, 0]).board 5 0 = some PLAYER1 ∧
      cellAt (playMoves initEngine [0, 1, 0, 1, 0, 1, 0]).board 4 0 = some PLAYER1 ∧
      cellAt (playMoves initEngine [0, 1, 0, 1, 0, 1, 0]).board 3 0 = some PLAYER1 ∧
      cellAt (playMoves initEngine [0, 1, 0, 1, 0, 1, 0]).board 2 0 = some PLAYER1 ∧
      4 ≤ countConsecutive (playMoves initEngine [0, 1, 0, 1, 0, 1, 0]).board
        2 0 1 0 PLAYER1) :=
  ⟨checkWin_iff_hasRun, by decide⟩

/-- Witness for C2: the hypothesis of the first conjunct holds at the board
reached by the seven-move sequence, at the just-placed cell. -/
theorem checkWin_contract_witness :
    cellAt (playMoves initEngine [0, 1, 0, 1, 0, 1, 0]).board 2 0 = some PLAYER1 ∧
      (checkWin (playMoves initEngine [0, 1, 0, 1, 0, 1, 0]).board 2 0 PLAYER1 = true ↔
        hasRun (playMoves initEngine [0, 1, 0, 1, 0, 1, 0]).board 2 0 0 1 PLAYER1 ∨
        hasRun (playMoves initEngine [0, 1, 0, 1, 0, 1, 0]).board 2 0 1 0 PLAYER1 ∨
        hasRun (playMoves initEngine [0, 1, 0, 1, 0, 1, 0]).board 2 0 1 1 PLAYER1 ∨
        hasRun (playMoves initEngine [0, 1, 0, 1, 0, 1, 0]).board 2 0 1 (-1) PLAYER1) :=
  ⟨by decide, checkWin_contract.1 _ 2 0 PLAYER1 (by decide)⟩

/-- C4: `evaluateMove` leaves the engine observably unchanged — every board
cell, the move history, the current player and the game-over, winner and
draw flags equal their values before the call — and a repeated invocation
on the post-call state returns the same score. -/
theorem evaluateMove_pure (e : Engine) (col : Int) (p : Nat) :
    (evaluateMove e col p).1 = e ∧
    (∀ r c : Int, cellAt (evaluateMove e col p).1.board r c = cellAt e.board r c) ∧
    (evaluateMove e col p).1.moveHistory = e.moveHistory ∧
    (evaluateMove e col p).1.currentPlayer = e.currentPlayer ∧
    (evaluateMove e col p).1.gameOver = e.gameOver ∧
    (evaluateMove e col p).1.winner = e.winner ∧
    (evaluateMove e col p).1.isDraw = e.isDraw ∧
    (evaluateMove (evaluateMove e col p).1 col p).2 = (evaluateMove e col p).2 := by
  rw [evaluateMove_fst e col p]
  exact ⟨rfl, fun r c => rfl, rfl, rfl, rfl, rfl, rfl, rfl⟩

/-- Engine state of an already decided game (three stacked marks of player
1 in column 0, `gameOver` set, winner recorded as player 2), used to show
that `dropPiece` ignores the terminal flag and rewrites the winner. -/
def staleEngine : Engine :=
  { board := setCell (setCell (setCell initializeBoard 5 0 PLAYER1) 4 0 PLAYER1)
      3 0 PLAYER1
    currentPlayer := PLAYER1
    moveHistory := []
    gameOver := true
    winner := some PLAYER2
    isDraw := false }

/-- C9: move acceptance never consults the terminal flag: with `gameOver`
already `true`, `dropPiece` on an in-range column with an empty top cell
still succeeds, writes the landing cell and appends one history record;
concretely on `staleEngine` it even reassigns the recorded winner; and the
`onMakeMove` validation pipeline gives the same verdict whether or not the
session's engine has `gameOver` set. -/
theorem gameOver_not_consulted :
    (∀ (e : Engine) (col : Int), e.gameOver = true →
      0 ≤ col → col < 7 → cellAt e.board 0 col = some EMPTY →
      (∃ g w d, (dropPiece e col).2 = .ok (findRow e.board col) g w d) ∧
      (dropPiece e col).1.moveHistory =
        e.moveHistory ++ [(findRow e.board col, col, e.currentPlayer)] ∧
      (dropPiece e col).1.board =
        setCell e.board (findRow e.board col) col e.currentPlayer) ∧
    (staleEngine.gameOver = true ∧ staleEngine.winner = some PLAYER2 ∧
      (dropPiece staleEngine 0).1.winner = some PLAYER1 ∧
      (dropPiece staleEngine 0).2 = .ok 2 true (some PLAYER1) false) ∧
    (∀ (s : Session) (socketId : String) (column : Int),
      onMakeMoveCheckS (some { s with engine := { s.engine with gameOver := true } })
        socketId column = onMakeMoveCheckS (some s) socketId column) := by
  refine ⟨?_, by decide, fun s socketId column => rfl⟩
  intro e col _ h0 h7 htop
  have hr : ¬ (col < 0 ∨ (COLS : Int) ≤ col) := by
    have hC : ((COLS : Nat) : Int) = 7 := rfl
    simp only [hC]
    omega
  by_cases hwin : checkWin (setCell e.board (findRow e.board col) col e.currentPlayer)
      (findRow e.board col) col e.currentPlayer = true
  · rw [dropPiece_win e col hr htop hwin]
    exact ⟨⟨true, some e.currentPlayer, false, rfl⟩, rfl, rfl⟩
  · by_cases hfull : isBoardFull (setCell e.board (findRow e.board col) col
        e.currentPlayer) = true
    · rw [dropPiece_draw e col hr htop hwin hfull]
      exact ⟨⟨true, none, true, rfl⟩, rfl, rfl⟩
    · rw [dropPiece_cont e col hr htop hwin hfull]
      exact ⟨⟨false, none, false, rfl⟩, rfl, rfl⟩

/-- Witness for C9: the hypotheses of the first conjunct hold at
`staleEngine` with column 0. -/
theorem gameOver_not_consulted_witness :
    staleEngine.gameOver = true ∧
      (∃ g w d, (dropPiece staleEngine 0).2 = .ok (findRow staleEngine.board 0) g w d) :=
  ⟨by decide,
    (gameOver_not_consulted.1 staleEngine 0 (by decide) (by decide) (by decide)
      (by decide)).1⟩

/-- C3: on a board with at least one legal column, `getBestMove` selects
the lowest-index legal column whose simulated placement wins immediately
for the bot's mark (player 2) when one exists — hence never a merely
blocking column in that situation; otherwise the lowest-index legal column
in which the opposing mark (player 1) would win by landing; otherwise the
legal column with the highest candidate score for the bot's mark, ties
broken by the lowest column index. -/
theorem getBestMove_priority (e : Engine) (hne : ¬ getValidMoves e.board = []) :
    ((∃ c ∈ getValidMoves e.board, winsByLanding e c PLAYER2) →
      ∃ c : Nat, (getBestMove e).2 = (c : Int) ∧ c ∈ getValidMoves e.board ∧
        winsByLanding e c PLAYER2 ∧
        ∀ c' ∈ getValidMoves e.board, winsByLanding e c' PLAYER2 → c ≤ c') ∧
    ((¬ ∃ c ∈ getValidMoves e.board, winsByLanding e c PLAYER2) →
      (∃ c ∈ getValidMoves e.board, winsByLanding e c PLAYER1) →
      ∃ c : Nat, (getBestMove e).2 = (c : Int) ∧ c ∈ getValidMoves e.board ∧
        winsByLanding e c PLAYER1 ∧
        ∀ c' ∈ getValidMoves e.board, winsByLanding e c' PLAYER1 → c ≤ c') ∧
    ((¬ ∃ c ∈ getValidMoves e.board, winsByLanding e c PLAYER2) →
      (¬ ∃ c ∈ getValidMoves e.board, winsByLanding e c PLAYER1) →
      ∃ c : Nat, (getBestMove e).2 = (c : Int) ∧ c ∈ getValidMoves e.board ∧
        (∀ c' ∈ getValidMoves e.board, score e c' PLAYER2 ≤ score e c PLAYER2) ∧
        (∀ c' ∈ getValidMoves e.board,
          score e c' PLAYER2 = score e c PLAYER2 → c ≤ c')) := by
  obtain ⟨c0, rest, hvm⟩ : ∃ c0 rest, getValidMoves e.board = c0 :: rest := by
    rcases h : getValidMoves e.board with _ | ⟨c0, rest⟩
    · exact absurd h hne
    · exact ⟨c0, rest, rfl⟩
  have hpw : List.Pairwise (· < ·) (c0 :: rest) := by
    rw [← hvm]
    exact getValidMoves_pairwise _
  have hgb := getBestMove_eq e c0 rest hvm
  refine ⟨?_, ?_, ?_⟩
  · intro hex
    obtain ⟨c, hc, hcw⟩ := hex
    have hcm : c ∈ c0 :: rest := by rw [← hvm]; exact hc
    have hw : 10000 ≤ score e c PLAYER2 := (score_win_iff e c PLAYER2).mpr hcw
    rcases h2 : firstWin PLAYER2 e (c0 :: rest) with _ | d
    · exact absurd hw ((firstWin_none_iff PLAYER2 e (c0 :: rest)).mp h2 c hcm)
    · obtain ⟨hm, hs, hmin⟩ := firstWin_some PLAYER2 e (c0 :: rest) d hpw h2
      refine ⟨d, ?_, by rw [hvm]; exact hm, (score_win_iff e d PLAYER2).mp hs, ?_⟩
      · rw [hgb, h2]
      · intro c' hc' hcw'
        exact hmin c' (by rw [← hvm]; exact hc')
          ((score_win_iff e c' PLAYER2).mpr hcw')
  · intro hno hex
    obtain ⟨c, hc, hcw⟩ := hex
    have hcm : c ∈ c0 :: rest := by rw [← hvm]; exact hc
    have h2 : firstWin PLAYER2 e (c0 :: rest) = none := by
      rw [firstWin_none_iff]
      intro d hd hds
      exact hno ⟨d, by rw [hvm]; exact hd, (score_win_iff e d PLAYER2).mp hds⟩
    have hw : 10000 ≤ score e c PLAYER1 := (score_win_iff e c PLAYER1).mpr hcw
    rcases h1 : firstWin PLAYER1 e (c0 :: rest) with _ | d
    · exact absurd hw ((firstWin_none_iff PLAYER1 e (c0 :: rest)).mp h1 c hcm)
    · obtain ⟨hm, hs, hmin⟩ := firstWin_some PLAYER1 e (c0 :: rest) d hpw h1
      refine ⟨d, ?_, by rw [hvm]; exact hm, (score_win_iff e d PLAYER1).mp hs, ?_⟩
      · rw [hgb, h2, h1]
      · intro c' hc' hcw'
        exact hmin c' (by rw [← hvm]; exact hc')
          ((score_win_iff e c' PLAYER1).mpr hcw')
  · intro hno2 hno1
    have h2 : firstWin PLAYER2 e (c0 :: rest) = none := by
      rw [firstWin_none_iff]
      intro d hd hds
      exact hno2 ⟨d, by rw [hvm]; exact hd, (score_win_iff e d PLAYER2).mp hds⟩
    have h1 : firstWin PLAYER1 e (c0 :: rest) = none := by
      rw [firstWin_none_iff]
      intro d hd hds
      exact hno1 ⟨d, by rw [hvm]; exact hd, (score_win_iff e d PLAYER1).mp hds⟩
    have hval : (getBestMove e).2 =
        ((bestFold PLAYER2 e c0 (score e c0 PLAYER2) (c0 :: rest)).1 : Int) := by
      rw [hgb, h2, h1]
    have hstep : bestFold PLAYER2 e c0 (score e c0 PLAYER2) (c0 :: rest) =
        bestFold PLAYER2 e c0 (score e c0 PLAYER2) rest := by
      rw [bestFold_cons, if_neg (lt_irrefl _)]
    rw [hstep] at hval
    obtain ⟨i1, i2, i3, i4, i5, i6, i7⟩ :=
      bestFold_spec PLAYER2 e rest c0 (score e c0 PLAYER2) rfl
        (List.pairwise_cons.mp hpw).2 (List.pairwise_cons.mp hpw).1
    refine ⟨(bestFold PLAYER2 e c0 (score e c0 PLAYER2) rest).1, hval, ?_, ?_, ?_⟩
    · rw [hvm]
      rcases i2 with h | h
      · rw [h]
        exact List.mem_cons_self _ _
      · exact List.mem_cons_of_mem _ h
    · intro c' hc'
      have hcm' : c' ∈ c0 :: rest := by rw [← hvm]; exact hc'
      rw [← i1]
      rcases List.mem_cons.mp hcm' with rfl | h
      · exact i3
      · exact i4 c' h
    · intro c' hc' heq
      have hcm' : c' ∈ c0 :: rest := by rw [← hvm]; exact hc'
      rcases List.mem_cons.mp hcm' with rfl | h
      · rcases i5 with h5 | h5
        · rw [h5]
        · exfalso
          rw [i1] at h5
          omega
      · exact i6 c' h (by rw [← i1] at heq; exact heq)

/-- Witness for C3: the hypotheses of the third clause hold at the initial
engine, where no immediate win or block exists. -/
theorem getBestMove_priority_witness :
    ¬ getValidMoves initEngine.board = [] ∧
      ((¬ ∃ c ∈ getValidMoves initEngine.board, winsByLanding initEngine c PLAYER2) →
        (¬ ∃ c ∈ getValidMoves initEngine.board, winsByLanding initEngine c PLAYER1) →
        ∃ c : Nat, (getBestMove initEngine).2 = (c : Int) ∧
          c ∈ getValidMoves initEngine.board ∧
          (∀ c' ∈ getValidMoves initEngine.board,
            score initEngine c' PLAYER2 ≤ score initEngine c PLAYER2) ∧
          (∀ c' ∈ getValidMoves initEngine.board,
            score initEngine c' PLAYER2 = score initEngine c PLAYER2 → c ≤ c')) :=
  ⟨by decide, (getBestMove_priority initEngine (by decide)).2.2⟩

/-- Participant record that `reconnect` selects for a matching username
(player 1 takes precedence, as in the source's `isPlayer1` check). -/
def matchedPlayer (s : Session) (username : String) : SPlayer :=
  if s.player1.username == username then s.player1 else s.player2

/-- Participant record after a successful reconnection (lines 269-277 of
the service: new socket id, connected, deadline and timer cleared). -/
def reconnectedPlayer (socketId : String) (pl : SPlayer) : SPlayer :=
  { pl with socketId := some socketId, connected := true,
            disconnectTime := none, reconnectTimeout := none }

/-- Session after a successful reconnection: the matched side is replaced
by its reconnected record. -/
def reconnectedSession (socketId username : String) (s : Session) : Session :=
  if s.player1.username == username
  then { s with player1 := reconnectedPlayer socketId (matchedPlayer s username) }
  else { s with player2 := reconnectedPlayer socketId (matchedPlayer s username) }

/-- Reduction of `reconnect` on an unknown session id. -/
theorem reconnect_notfound (st : MState) (socketId username sessionId : String)
    (now : Nat) (h : alookup st.activeSessions sessionId = none) :
    reconnect st socketId username sessionId now =
      (st, .failed ("Session not found")) := by
  unfold reconnect
  rw [h]

/-- Reduction of `reconnect` on a username matching neither participant. -/
theorem reconnect_mismatch (st : MState) (socketId username sessionId : String)
    (now : Nat) (s : Session) (hs : alookup st.activeSessions sessionId = some s)
    (h1 : ¬ s.player1.username = username) (h2 : ¬ s.player2.username = username) :
    reconnect st socketId username sessionId now =
      (st, .failed ("Username does not match session")) := by
  unfold reconnect
  rw [hs]
  dsimp only
  rw [if_pos (by simp [h1, h2])]

/-- Reduction of `reconnect` past the grace deadline (recorded disconnect
time). -/
theorem reconnect_expired (st : MState) (socketId username sessionId : String)
    (now : Nat) (s : Session) (t : Nat)
    (hs : alookup st.activeSessions sessionId = some s)
    (hmem : s.player1.username = username ∨ s.player2.username = username)
    (hd : (matchedPlayer s username).disconnectTime = some t)
    (hgt : 30000 < (now : Int) - (t : Int)) :
    reconnect st socketId username sessionId now =
      (st, .failed ("Reconnection window expired (30 seconds)")) := by
  unfold reconnect
  rw [hs]
  dsimp only
  have hcond : ¬ ((!(s.player1.username == username) &&
      !(s.player2.username == username)) = true) := by
    rcases hmem with h | h <;> simp [h]
  rw [if_neg hcond]
  unfold matchedPlayer at hd
  rw [hd]
  dsimp only
  rw [if_pos hgt]

/-- Reduction of `reconnect` past the grace deadline when the participant
was never marked disconnected (`disconnectTime` still `null`, which the
subtraction coerces to `0`). -/
theorem reconnect_expired_null (st : MState) (socketId username sessionId : String)
    (now : Nat) (s : Session)
    (hs : alookup st.activeSessions sessionId = some s)
    (hmem : s.player1.username = username ∨ s.player2.username = username)
    (hd : (matchedPlayer s username).disconnectTime = none)
    (hgt : 30000 < now) :
    reconnect st socketId username sessionId now =
      (st, .failed ("Reconnection window expired (30 seconds)")) := by
  unfold reconnect
  rw [hs]
  dsimp only
  have hcond : ¬ ((!(s.player1.username == username) &&
      !(s.player2.username == username)) = true) := by
    rcases hmem with h | h <;> simp [h]
  rw [if_neg hcond]
  unfold matchedPlayer at hd
  rw [hd]
  dsimp only
  rw [if_pos (by omega : (30000 : Int) < (now : Int) - 0)]

/-- Reduction of `reconnect` inside the grace window. -/
theorem reconnect_ok (st : MState) (socketId username sessionId : String)
    (now : Nat) (s : Session) (t : Nat)
    (hs : alookup st.activeSessions sessionId = some s)
    (hmem : s.player1.username = username ∨ s.player2.username = username)
    (hd : (matchedPlayer s username).disconnectTime = some t)
    (hle : (now : Int) - (t : Int) ≤ 30000) :
    reconnect st socketId username sessionId now =
      ({ st with
          activeSessions := aupdate st.activeSessions sessionId
            (fun _ => reconnectedSession socketId username s),
          cancelled :=
            match (matchedPlayer s username).reconnectTimeout with
            | some tid => st.cancelled ++ [tid]
            | none => st.cancelled },
        .ok (reconnectedSession socketId username s)) := by
  unfold reconnect reconnectedSession reconnectedPlayer matchedPlayer
  rw [hs]
  dsimp only
  have hcond : ¬ ((!(s.player1.username == username) &&
      !(s.player2.username == username)) = true) := by
    rcases hmem with h | h <;> simp [h]
  rw [if_neg hcond]
  unfold matchedPlayer at hd
  rw [hd]
  dsimp only
  rw [if_neg (by omega : ¬ (30000 : Int) < (now : Int) - (t : Int))]

/-- After a successful reconnection, the matched participant of the
returned session is the reconnected record. -/
theorem matchedPlayer_reconnected (s : Session) (socketId username : String) :
    matchedPlayer (reconnectedSession socketId username s) username =
      reconnectedPlayer socketId (matchedPlayer s username) := by
  unfold reconnectedSession matchedPlayer reconnectedPlayer
  by_cases h : (s.player1.username == username) = true
  · simp [h]
  · simp [h]

/-- C5: `reconnect` fails with `Session not found` when no active session
has the id; otherwise fails with the identity-mismatch error when the
username matches neither participant; otherwise fails with the
grace-window-expired error when more than 30000 ms have passed since the
matched participant's recorded disconnect time (deadline evaluated at
processing time `now`); otherwise it marks the participant connected,
clears the disconnect deadline, cancels the grace timer, and returns the
full current session state (engine with board, turn and move log intact). -/
theorem reconnect_contract (st : MState) (socketId username sessionId : String)
    (now : Nat) :
    (alookup st.activeSessions sessionId = none →
      reconnect st socketId username sessionId now =
        (st, .failed ("Session not found"))) ∧
    (∀ s, alookup st.activeSessions sessionId = some s →
      ¬ s.player1.username = username → ¬ s.player2.username = username →
      reconnect st socketId username sessionId now =
        (st, .failed ("Username does not match session"))) ∧
    (∀ s t, alookup st.activeSessions sessionId = some s →
      (s.player1.username = username ∨ s.player2.username = username) →
      (matchedPlayer s username).disconnectTime = some t →
      30000 < (now : Int) - (t : Int) →
      reconnect st socketId username sessionId now =
        (st, .failed ("Reconnection window expired (30 seconds)"))) ∧
    (∀ s t, alookup st.activeSessions sessionId = some s →
      (s.player1.username = username ∨ s.player2.username = username) →
      (matchedPlayer s username).disconnectTime = some t →
      (now : Int) - (t : Int) ≤ 30000 →
      ∃ s', (reconnect st socketId username sessionId now).2 = .ok s' ∧
        s'.engine = s.engine ∧
        s'.sessionId = s.sessionId ∧
        (matchedPlayer s' username).connected = true ∧
        (matchedPlayer s' username).disconnectTime = none ∧
        (matchedPlayer s' username).reconnectTimeout = none ∧
        (matchedPlayer s' username).socketId = some socketId ∧
        alookup (reconnect st socketId username sessionId now).1.activeSessions
          sessionId = some s' ∧
        (reconnect st socketId username sessionId now).1.waitingPlayers =
          st.waitingPlayers ∧
        (∀ tid, (matchedPlayer s username).reconnectTimeout = some tid →
          tid ∈ (reconnect st socketId username sessionId now).1.cancelled)) := by
  refine ⟨?_, ?_, ?_, ?_⟩
  · intro h
    exact reconnect_notfound st socketId username sessionId now h
  · intro s hs h1 h2
    exact reconnect_mismatch st socketId username sessionId now s hs h1 h2
  · intro s t hs hmem hd hgt
    exact reconnect_expired st socketId username sessionId now s t hs hmem hd hgt
  · intro s t hs hmem hd hle
    have hr := reconnect_ok st socketId username sessionId now s t hs hmem hd hle
    refine ⟨reconnectedSession socketId username s, by rw [hr], ?_, ?_, ?_, ?_, ?_, ?_,
        ?_, ?_, ?_⟩
    · unfold reconnectedSession
      split <;> rfl
    · unfold reconnectedSession
      split <;> rfl
    · rw [matchedPlayer_reconnected]
      rfl
    · rw [matchedPlayer_reconnected]
      rfl
    · rw [matchedPlayer_reconnected]
      rfl
    · rw [matchedPlayer_reconnected]
      rfl
    · rw [hr]
      dsimp only
      rw [alookup_aupdate_self, hs]
      rfl
    · rw [hr]
    · intro tid htid
      rw [hr]
      dsimp only
      rw [htid]
      simp

/-- Concrete two-human session state used by the C5 and C10 witnesses:
session `S1` between usernames `x` (socket `A`, later marked disconnected
at time 1000 with grace timer 77) and `y` (socket `B`). -/
def demoSessionState : MState :=
  (markDisconnected (createSession ⟨[], [], [], []⟩ ("A") ("x") ("B") ("y")
    false ("S1") 50).1 ("A") 77 1000).1

/-- Session stored in `demoSessionState` under id `S1`: participant `x`
disconnected at 1000 with grace timer 77, participant `y` connected. -/
def demoSession : Session :=
  { sessionId := ("S1")
    player1 := ⟨some ("A"), ("x"), false, false, some 1000, some 77⟩
    player2 := ⟨some ("B"), ("y"), false, true, none, none⟩
    isVsBot := false
    engine := initEngine
    startTime := 50
    endTime := none
    result := none
    winner := none }

/-- Witness for C5: the hypotheses of the success clause hold in
`demoSessionState` for username `x` at time 21000 (within the window). -/
theorem reconnect_contract_witness :
    alookup demoSessionState.activeSessions ("S1") = some demoSession ∧
    (demoSession.player1.username = ("x") ∨ demoSession.player2.username = ("x")) ∧
    (matchedPlayer demoSession ("x")).disconnectTime = some 1000 ∧
    ((21000 : Int) - (1000 : Int) ≤ 30000) ∧
    (∃ s', (reconnect demoSessionState ("C") ("x") ("S1") 21000).2 = .ok s' ∧
      s'.engine = demoSession.engine ∧
      s'.sessionId = demoSession.sessionId ∧
      (matchedPlayer s' ("x")).connected = true ∧
      (matchedPlayer s' ("x")).disconnectTime = none ∧
      (matchedPlayer s' ("x")).reconnectTimeout = none ∧
      (matchedPlayer s' ("x")).socketId = some ("C") ∧
      alookup (reconnect demoSessionState ("C") ("x") ("S1") 21000).1.activeSessions
        ("S1") = some s' ∧
      (reconnect demoSessionState ("C") ("x") ("S1") 21000).1.waitingPlayers =
        demoSessionState.waitingPlayers ∧
      (∀ tid, (matchedPlayer demoSession ("x")).reconnectTimeout = some tid →
        tid ∈ (reconnect demoSessionState ("C") ("x") ("S1") 21000).1.cancelled)) :=
  ⟨by decide, by decide, by decide, by decide,
    (reconnect_contract demoSessionState ("C") ("x") ("S1") 21000).2.2.2
      demoSession 1000 (by decide) (by decide) (by decide) (by decide)⟩

/-- Session after `forfeitGame` ends it: game over, end time recorded,
result tag `forfeit`, the non-disconnected side declared winner. -/
def forfeitedSession (s : Session) (isP1 : Bool) (now : Nat) : Session :=
  { s with engine := { s.engine with gameOver := true },
           endTime := some now,
           result := some ("forfeit"),
           winner := some (if isP1 then s.player2.username else s.player1.username) }

/-- Reduction of `forfeitGame` on a missing session. -/
theorem forfeitGame_none (st : MState) (sessionId : String) (isP1 : Bool)
    (now : Nat) (h : alookup st.activeSessions sessionId = none) :
    forfeitGame st sessionId isP1 now = st := by
  unfold forfeitGame
  rw [h]

/-- Reduction of `forfeitGame` on an already finished game. -/
theorem forfeitGame_over (st : MState) (sessionId : String) (isP1 : Bool)
    (now : Nat) (s : Session) (hs : alookup st.activeSessions sessionId = some s)
    (hgo : s.engine.gameOver = true) :
    forfeitGame st sessionId isP1 now = st := by
  unfold forfeitGame
  rw [hs]
  dsimp only
  rw [if_pos hgo]

/-- Reduction of `forfeitGame` on a live session. -/
theorem forfeitGame_live (st : MState) (sessionId : String) (isP1 : Bool)
    (now : Nat) (s : Session) (hs : alookup st.activeSessions sessionId = some s)
    (hgo : s.engine.gameOver = false) :
    forfeitGame st sessionId isP1 now =
      { st with activeSessions :=
          aupdate st.activeSessions sessionId (fun _ => forfeitedSession s isP1 now) } := by
  unfold forfeitGame forfeitedSession
  rw [hs]
  dsimp only
  rw [if_neg (by simp [hgo])]

/-- C6: `forfeitGame` takes effect at most once per session: a first call
on a live session marks the game over, records the end time, sets the
result tag `forfeit` and declares the other participant (not the
disconnected one) the winner, leaving every other session alone; a call on
a missing id or an already finished game changes nothing; a repeated call
with any arguments after a first call changes nothing; and the flag the
grace timer passes to `forfeitGame` (from `markDisconnected`) records
which side disconnected, so the declared winner is the other one. -/
theorem forfeitGame_idempotent (st : MState) (sessionId : String) (isP1 : Bool)
    (now : Nat) :
    (∀ s, alookup st.activeSessions sessionId = some s →
      s.engine.gameOver = false →
      ∃ s', alookup (forfeitGame st sessionId isP1 now).activeSessions sessionId =
          some s' ∧
        s'.engine.gameOver = true ∧
        s'.endTime = some now ∧
        s'.result = some ("forfeit") ∧
        s'.winner = some (if isP1 then s.player2.username else s.player1.username) ∧
        s'.player1 = s.player1 ∧ s'.player2 = s.player2 ∧
        s'.engine.board = s.engine.board ∧
        (∀ sid', ¬ sid' = sessionId →
          alookup (forfeitGame st sessionId isP1 now).activeSessions sid' =
            alookup st.activeSessions sid')) ∧
    (alookup st.activeSessions sessionId = none →
      forfeitGame st sessionId isP1 now = st) ∧
    (∀ s, alookup st.activeSessions sessionId = some s →
      s.engine.gameOver = true → forfeitGame st sessionId isP1 now = st) ∧
    (∀ (isP1' : Bool) (now' : Nat),
      forfeitGame (forfeitGame st sessionId isP1 now) sessionId isP1' now' =
        forfeitGame st sessionId isP1 now) ∧
    (∀ (socketId : String) (ntid nowD : Nat) (st2 : MState) (sid : String) (b : Bool),
      markDisconnected st socketId ntid nowD = (st2, some (sid, b)) →
      ∃ s, getSessionByPlayerId st socketId = some s ∧ sid = s.sessionId ∧
        b = (s.player1.socketId == some socketId)) := by
  refine ⟨?_, ?_, ?_, ?_, ?_⟩
  · intro s hs hgo
    rw [forfeitGame_live st sessionId isP1 now s hs hgo]
    refine ⟨forfeitedSession s isP1 now, ?_, rfl, rfl, rfl, rfl, rfl, rfl, rfl, ?_⟩
    · dsimp only
      rw [alookup_aupdate_self, hs]
      rfl
    · intro sid' hne
      dsimp only
      exact alookup_aupdate_ne st.activeSessions sessionId sid' _ hne
  · intro h
    exact forfeitGame_none st sessionId isP1 now h
  · intro s hs hgo
    exact forfeitGame_over st sessionId isP1 now s hs hgo
  · intro isP1' now'
    rcases hs : alookup st.activeSessions sessionId with _ | s
    · rw [forfeitGame_none st sessionId isP1 now hs,
          forfeitGame_none st sessionId isP1' now' hs]
    · cases hgo : s.engine.gameOver with
      | true =>
        rw [forfeitGame_over st sessionId isP1 now s hs hgo,
            forfeitGame_over st sessionId isP1' now' s hs hgo]
      | false =>
        rw [forfeitGame_live st sessionId isP1 now s hs hgo]
        have hl : alookup
            ({ st with
              activeSessions := aupdate st.activeSessions sessionId
                (fun _ => forfeitedSession s isP1 now) }).activeSessions sessionId =
            some (forfeitedSession s isP1 now) := by
          dsimp only
          rw [alookup_aupdate_self, hs]
          rfl
        exact forfeitGame_over _ sessionId isP1' now' _ hl rfl
  · intro socketId ntid nowD st2 sid b h
    unfold markDisconnected at h
    rcases hg : getSessionByPlayerId st socketId with _ | s
    · rw [hg] at h
      simp at h
    · rw [hg] at h
      dsimp only at h
      have h2 := congrArg Prod.snd h
      dsimp only at h2
      have h3 : (s.sessionId, (s.player1.socketId == some socketId)) = (sid, b) := by
        simpa using h2
      exact ⟨s, rfl, (congrArg Prod.fst h3).symm, (congrArg Prod.snd h3).symm⟩

/-- Witness for C6: the hypotheses of the first clause hold in
`demoSessionState` for the live session `S1`, forfeited against its
disconnected player 1. -/
theorem forfeitGame_idempotent_witness :
    alookup demoSessionState.activeSessions ("S1") = some demoSession ∧
    demoSession.engine.gameOver = false ∧
    (∃ s', alookup (forfeitGame demoSessionState ("S1") true 31000).activeSessions
        ("S1") = some s' ∧
      s'.engine.gameOver = true ∧
      s'.endTime = some 31000 ∧
      s'.result = some ("forfeit") ∧
      s'.winner = some (if true then demoSession.player2.username
        else demoSession.player1.username) ∧
      s'.player1 = demoSession.player1 ∧ s'.player2 = demoSession.player2 ∧
      s'.engine.board = demoSession.engine.board ∧
      (∀ sid', ¬ sid' = ("S1") →
        alookup (forfeitGame demoSessionState ("S1") true 31000).activeSessions sid' =
          alookup demoSessionState.activeSessions sid')) :=
  ⟨by decide, by decide,
    (forfeitGame_idempotent demoSessionState ("S1") true 31000).1 demoSession
      (by decide) (by decide)⟩

/-- The entry found by the pairing scan never carries the joiner's own
key. -/
theorem findFirstOther_ne (l : List (String × WaitEntry)) (k : String)
    (other : String × WaitEntry) (h : findFirstOther l k = some other) :
    ¬ other.1 = k := by
  induction l with
  | nil => simp [findFirstOther] at h
  | cons kv rest ih =>
    unfold findFirstOther at h
    by_cases hk : ¬ kv.1 = k
    · rw [if_pos hk] at h
      have hkv : kv = other := by simpa using h
      rw [← hkv]
      exact hk
    · rw [if_neg hk] at h
      exact ih h

/-- C7: pairing and the wait timer are mutually exclusive. A successful
`tryPairPlayers` removes both matched identities from the wait queue,
removes both identities' wait-timer entries and logs their cancellation,
and afterwards a firing wait timer (`spawnBotOpponent`) for either identity
returns `null` and leaves the state unchanged; in general
`spawnBotOpponent` is a strict no-op for any identity absent from the
waiting map, so a timer firing after its identity left the queue creates
no session and modifies no state. -/
theorem pairing_timer_exclusive (st : MState) (socketId newSessionId : String)
    (now : Nat) :
    (∀ st' res, tryPairPlayers st socketId newSessionId now = (st', some res) →
      alookup st'.waitingPlayers socketId = none ∧
      alookup st'.matchmakingTimeouts socketId = none ∧
      (∀ nsid n2, spawnBotOpponent st' socketId nsid n2 = (st', none)) ∧
      (∀ tid, alookup st.matchmakingTimeouts socketId = some tid →
        tid ∈ st'.cancelled) ∧
      ∃ other, findFirstOther st.waitingPlayers socketId = some other ∧
        ¬ other.1 = socketId ∧
        alookup st'.waitingPlayers other.1 = none ∧
        alookup st'.matchmakingTimeouts other.1 = none ∧
        (∀ nsid n2, spawnBotOpponent st' other.1 nsid n2 = (st', none)) ∧
        (∀ tid, alookup st.matchmakingTimeouts other.1 = some tid →
          tid ∈ st'.cancelled)) ∧
    (∀ pid nsid n2, alookup st.waitingPlayers pid = none →
      spawnBotOpponent st pid nsid n2 = (st, none)) := by
  constructor
  · intro st' res h
    unfold tryPairPlayers at h
    rcases hfo : findFirstOther st.waitingPlayers socketId with _ | other
    · rw [hfo] at h
      simp at h
    · rw [hfo] at h
      rcases hcp : alookup st.waitingPlayers socketId with _ | cp
      · rw [hcp] at h
        simp at h
      · rw [hcp] at h
        dsimp only at h
        have hne : ¬ other.1 = socketId := findFirstOther_ne _ _ _ hfo
        have hst' : st' =
            (createSession
              (clearMMTimeout (clearMMTimeout
                { st with waitingPlayers :=
                    aerase (aerase st.waitingPlayers socketId) other.1 } other.1)
                socketId)
              socketId cp.username other.1 other.2.username false newSessionId now).1 :=
          (congrArg Prod.fst h).symm
        have hw : st'.waitingPlayers =
            aerase (aerase st.waitingPlayers socketId) other.1 := by
          rw [hst']
          unfold createSession
          dsimp only
          rw [clearMMTimeout_waiting, clearMMTimeout_waiting]
        have ht : st'.matchmakingTimeouts =
            (clearMMTimeout (clearMMTimeout
              { st with waitingPlayers :=
                  aerase (aerase st.waitingPlayers socketId) other.1 } other.1)
              socketId).matchmakingTimeouts := by
          rw [hst']
          unfold createSession
          dsimp only
        have hcanc : st'.cancelled =
            (clearMMTimeout (clearMMTimeout
              { st with waitingPlayers :=
                  aerase (aerase st.waitingPlayers socketId) other.1 } other.1)
              socketId).cancelled := by
          rw [hst']
          unfold createSession
          dsimp only
        have hwself : alookup st'.waitingPlayers socketId = none := by
          rw [hw, alookup_aerase_ne _ _ _ (fun hh => hne hh.symm),
            alookup_aerase_self]
        have hwother : alookup st'.waitingPlayers other.1 = none := by
          rw [hw, alookup_aerase_self]
        have htself : alookup st'.matchmakingTimeouts socketId = none := by
          rw [ht, alookup_clearMMTimeout_self]
        have htother : alookup st'.matchmakingTimeouts other.1 = none := by
          rw [ht, alookup_clearMMTimeout_ne _ _ _ hne,
            alookup_clearMMTimeout_self]
        refine ⟨hwself, htself, ?_, ?_, other, rfl, hne, hwother, htother, ?_, ?_⟩
        · intro nsid n2
          unfold spawnBotOpponent
          rw [hwself]
        · intro tid htid
          rw [hcanc]
          apply clearMMTimeout_cancelled_self
          rw [alookup_clearMMTimeout_ne _ _ _ (fun hh => hne hh.symm)]
          exact htid
        · intro nsid n2
          unfold spawnBotOpponent
          rw [hwother]
        · intro tid htid
          rw [hcanc]
          apply clearMMTimeout_cancelled_mono
          apply clearMMTimeout_cancelled_self
          exact htid
  · intro pid nsid n2 h
    unfold spawnBotOpponent
    rw [h]

/-- Queue state with two waiting humans (`x` on socket `A`, `y` on socket
`B`) and their wait timers 11 and 12, used by the C7 witness. -/
def pairingState : MState :=
  ⟨[(("A"), ⟨("A"), ("x"), ("human"), 0⟩), (("B"), ⟨("B"), ("y"), ("human"), 5⟩)],
    [], [(("A"), 11), (("B"), 12)], []⟩

/-- Witness for C7: the pairing of socket `B` with waiting socket `A` in
`pairingState` satisfies the hypothesis of the first clause. -/
theorem pairing_timer_exclusive_witness :
    tryPairPlayers pairingState ("B") ("S9") 99 =
      ((tryPairPlayers pairingState ("B") ("S9") 99).1, some (("S9"), ("x"))) ∧
    (alookup (tryPairPlayers pairingState ("B") ("S9") 99).1.waitingPlayers ("B") =
        none ∧
      alookup (tryPairPlayers pairingState ("B") ("S9") 99).1.matchmakingTimeouts
        ("B") = none ∧
      (∀ nsid n2, spawnBotOpponent (tryPairPlayers pairingState ("B") ("S9") 99).1
        ("B") nsid n2 = ((tryPairPlayers pairingState ("B") ("S9") 99).1, none)) ∧
      (∀ tid, alookup pairingState.matchmakingTimeouts ("B") = some tid →
        tid ∈ (tryPairPlayers pairingState ("B") ("S9") 99).1.cancelled) ∧
      ∃ other, findFirstOther pairingState.waitingPlayers ("B") = some other ∧
        ¬ other.1 = ("B") ∧
        alookup (tryPairPlayers pairingState ("B") ("S9") 99).1.waitingPlayers
          other.1 = none ∧
        alookup (tryPairPlayers pairingState ("B") ("S9") 99).1.matchmakingTimeouts
          other.1 = none ∧
        (∀ nsid n2, spawnBotOpponent (tryPairPlayers pairingState ("B") ("S9") 99).1
          other.1 nsid n2 = ((tryPairPlayers pairingState ("B") ("S9") 99).1, none)) ∧
        (∀ tid, alookup pairingState.matchmakingTimeouts other.1 = some tid →
          tid ∈ (tryPairPlayers pairingState ("B") ("S9") 99).1.cancelled)) :=
  ⟨by decide,
    (pairing_timer_exclusive pairingState ("B") ("S9") 99).1
      (tryPairPlayers pairingState ("B") ("S9") 99).1 (("S9"), ("x")) (by decide)⟩

/-- Queue state with username `x` waiting under socket `A` (wait timer 11)
and no active session, used for the C8 counterexample and witness. -/
def cexState : MState :=
  ⟨[(("A"), ⟨("A"), ("x"), ("human"), 100⟩)], [], [(("A"), 11)], []⟩

/-- C8 (amended): `joinQueue` fails with `Already in queue` whenever the
joining socket id already has a wait-queue entry, and with `Username
already in game` whenever the username is a participant of some active
session; in both failure cases the service state is returned unchanged, so
no queue entry and no session is created. (Queue-duplicate detection is
keyed by socket id, not by username.) -/
theorem joinQueue_duplicate (st : MState) (socketId username gameMode : String)
    (newSessionId : String) (newTimerId : Nat) (now : Nat) :
    ((alookup st.waitingPlayers socketId).isSome = true →
      joinQueue st socketId username gameMode newSessionId newTimerId now =
        (st, .jerror ("Already in queue"))) ∧
    ((alookup st.waitingPlayers socketId).isSome = false →
      (st.activeSessions.any fun kv =>
        kv.2.player1.username == username ||
          kv.2.player2.username == username) = true →
      joinQueue st socketId username gameMode newSessionId newTimerId now =
        (st, .jerror ("Username already in game"))) := by
  constructor
  · intro h
    unfold joinQueue
    rw [if_pos h]
  · intro h1 h2
    unfold joinQueue
    rw [if_neg (by simp [h1]), if_pos h2]

/-- Witness for C8's amended theorem: socket `A` rejoining `cexState` is
refused without mutation. -/
theorem joinQueue_duplicate_witness :
    (alookup cexState.waitingPlayers ("A")).isSome = true ∧
      joinQueue cexState ("A") ("z") ("human") ("S3") 13 110 =
        (cexState, .jerror ("Already in queue")) :=
  ⟨by decide,
    (joinQueue_duplicate cexState ("A") ("z") ("human") ("S3") 13 110).1 (by decide)⟩

/-- Counterexample to C8 as stated: in `cexState` the identity (username)
`x` already has a wait-queue entry (under socket `A`), yet a join for `x`
arriving on a different socket `B` is not refused with a duplicate error —
the queue check is keyed by socket id, so the request is paired (username
`x` with itself) and a session is created. -/
theorem joinQueue_duplicate_cex :
    (∃ kv ∈ cexState.waitingPlayers, kv.2.username = ("x")) ∧
    (joinQueue cexState ("B") ("x") ("human") ("S2") 12 105).2 =
      .pairedRes ("S2") ("x") ∧
    ∀ msg, ¬ (joinQueue cexState ("B") ("x") ("human") ("S2") 12 105).2 =
      .jerror msg := by
  refine ⟨by decide, by decide, ?_⟩
  intro msg h
  rw [show (joinQueue cexState ("B") ("x") ("human") ("S2") 12 105).2 =
    .pairedRes ("S2") ("x") from by decide] at h
  simp at h

/-- C10: a reconnect for a participant of an existing session who was
never marked disconnected always fails in practice: `disconnectTime` is
still `null` (its value from `createSession`), the subtraction
`Date.now() - null` coerces it to `0`, so whenever the processing-time
clock exceeds 30000 ms — always the case for a real epoch clock — the
elapsed-time computation exceeds the window and `reconnect` returns the
`Reconnection window expired (30 seconds)` error instead of succeeding. -/
theorem reconnect_null_disconnect (st : MState)
    (socketId username sessionId : String) (now : Nat) (s : Session)
    (hs : alookup st.activeSessions sessionId = some s)
    (hmem : s.player1.username = username ∨ s.player2.username = username)
    (hd : (matchedPlayer s username).disconnectTime = none)
    (hn : 30000 < now) :
    reconnect st socketId username sessionId now =
      (st, .failed ("Reconnection window expired (30 seconds)")) :=
  reconnect_expired_null st socketId username sessionId now s hs hmem hd hn

/-- Matchmaking state holding only the freshly created session `S2`
(nobody ever disconnected), used by the C10 witness. -/
def freshSessionState : MState :=
  (createSession ⟨[], [], [], []⟩ ("A") ("x") ("B") ("y") false ("S2") 50).1

/-- The session stored in `freshSessionState`: both participants connected,
both disconnect times still `null`. -/
def freshSession : Session :=
  { sessionId := ("S2")
    player1 := ⟨some ("A"), ("x"), false, true, none, none⟩
    player2 := ⟨some ("B"), ("y"), false, true, none, none⟩
    isVsBot := false
    engine := initEngine
    startTime := 50
    endTime := none
    result := none
    winner := none }

/-- Witness for C10: the hypotheses hold in `freshSessionState` for
username `x` at clock 40000. -/
theorem reconnect_null_disconnect_witness :
    alookup freshSessionState.activeSessions ("S2") = some freshSession ∧
    (freshSession.player1.username = ("x") ∨ freshSession.player2.username = ("x")) ∧
    (matchedPlayer freshSession ("x")).disconnectTime = none ∧
    30000 < 40000 ∧
    reconnect freshSessionState ("C") ("x") ("S2") 40000 =
      (freshSessionState, .failed ("Reconnection window expired (30 seconds)")) :=
  ⟨by decide, by decide, by decide, by decide,
    reconnect_null_disconnect freshSessionState ("C") ("x") ("S2") 40000 freshSession
      (by decide) (by decide) (by decide) (by decide)⟩

end Connect4
